import Mathlib

/-!
Verification of the operation normalization and reconciliation pipeline of the
agilow backend (Trello / Linear / Asana task-management automation).

The Python sources are shallowly embedded: each definition below mirrors one
Python function (same name where Lean allows it), with remote HTTP state
modelled as explicit record values threaded through the transitions.  Remote
calls are modelled as always succeeding; credentials, logging and the LLM
extraction call are out of scope.
-/

namespace Agilow

/-! ## Python string primitives -/

/-- Python `str.lower()` (ASCII case folding, which covers all inputs used by
the pipeline); written on the character list so that it reduces inside the
kernel. -/
def pyLower (s : String) : String := ⟨s.data.map Char.toLower⟩

/-- Python whitespace class `\s` for the ASCII range. -/
def pyIsSpace (c : Char) : Bool :=
  c = ' ' || c = '\t' || c = '\n' || c = '\x0b' || c = '\x0c' || c = '\r'

/-- Substring containment on character lists: Python `needle in hay`.
The empty needle is contained in every string, as in Python. -/
def listContainsSub (hay needle : List Char) : Bool :=
  match hay with
  | [] => needle.isEmpty
  | _ :: t => needle.isPrefixOf hay || listContainsSub t needle

/-- Python `needle in hay` on strings. -/
def strContains (hay needle : String) : Bool :=
  listContainsSub hay.data needle.data

/-- Python `str.strip()`: remove leading and trailing whitespace. -/
def pyStrip (s : String) : String :=
  let l := (s.data.dropWhile pyIsSpace).reverse.dropWhile pyIsSpace
  ⟨l.reverse⟩

/-- Replace every occurrence of character `a` by `b`: Python
`str.replace(a, b)` for single-character arguments. -/
def pyReplaceChar (s : String) (a b : Char) : String :=
  ⟨s.data.map (fun c => if c = a then b else c)⟩

/-- Python `str.split()` with no argument: split on whitespace runs and drop
empty pieces. -/
def pySplitWs (s : String) : List String :=
  ((s.data.splitOnP pyIsSpace).filter (fun l => l ≠ [])).map (fun l => ⟨l⟩)

/-- Python `str.capitalize()`: first character upper-cased, rest lower-cased. -/
def pyCapitalize (s : String) : String :=
  match s.data with
  | [] => ""
  | c :: rest => ⟨c.toUpper :: rest.map Char.toLower⟩

/-- Python `str.isdigit()` restricted to ASCII digits: nonempty and all
characters are digits. -/
def pyIsDigit (s : String) : Bool :=
  s ≠ "" && s.data.all Char.isDigit

/-- Parse a nonempty ASCII digit string to a natural number. -/
def digitsToNat (l : List Char) : Nat :=
  l.foldl (fun acc c => acc * 10 + (c.toNat - 48)) 0

/-- Python `int(s)` on a string: optional surrounding whitespace, optional
sign, then digits; `Option.none` models the `ValueError` path. -/
def pyIntParse (s : String) : Option Int :=
  let core := (s.data.dropWhile pyIsSpace).reverse.dropWhile pyIsSpace |>.reverse
  match core with
  | [] => Option.none
  | '-' :: ds => if ds ≠ [] && ds.all Char.isDigit then some (-(digitsToNat ds : Int)) else Option.none
  | '+' :: ds => if ds ≠ [] && ds.all Char.isDigit then some ((digitsToNat ds : Int)) else Option.none
  | ds => if ds.all Char.isDigit then some ((digitsToNat ds : Int)) else Option.none

/-- Lexicographic code-point comparison on strings, matching how Python
`sorted` orders the rendered field strings. -/
def strLeChars : List Char → List Char → Bool
  | [], _ => true
  | _ :: _, [] => false
  | a :: as, b :: bs =>
    if a.val < b.val then true
    else if b.val < a.val then false
    else strLeChars as bs

def strLeB (a b : String) : Bool := strLeChars a.data b.data

/-- Insertion into a sorted list, used to model Python `sorted`. -/
def insertSorted (s : String) : List String → List String
  | [] => [s]
  | t :: ts => if strLeB s t then s :: t :: ts else t :: insertSorted s ts

/-- Python `sorted` on a list of strings (code-point order). -/
def sortStrings (l : List String) : List String :=
  l.foldr insertSorted []

/-! ## Raw operation values

LLM-extracted operations are JSON objects with string keys.  Field values in
the operations handled by the signature functions are strings, lists of
strings, or JSON null; `PyV` models exactly that fragment of Python values. -/

inductive PyV where
  | str : String → PyV
  | list : List String → PyV
  | pnone : PyV
deriving DecidableEq, Repr

/-- Python `str(v)` for the modelled value fragment (list rendering uses
Python `repr` quoting). -/
def PyV.pyStr : PyV → String
  | .str s => s
  | .list xs => "[" ++ String.intercalate ", " (xs.map (fun s => "\x27" ++ s ++ "\x27")) ++ "]"
  | .pnone => "None"

/-- Python truthiness for the modelled value fragment. -/
def PyV.truthy : PyV → Bool
  | .str s => s ≠ ""
  | .list xs => xs ≠ []
  | .pnone => false

/-- Python `a or b` on values. -/
def pyOr (a b : PyV) : PyV := if a.truthy then a else b

/-- A raw operation as received from the JSON extraction step: either a JSON
object (association list in insertion order) or some non-mapping value. -/
inductive RawOp where
  | dict : List (String × PyV) → RawOp
  | nonDict : RawOp
deriving DecidableEq, Repr

/-- `op.get(k, '')` rendered through `str`, as the signature f-strings do. -/
def getStr (kvs : List (String × PyV)) (k : String) : String :=
  ((kvs.lookup k).getD (PyV.str "")).pyStr

/-- `op.get(k, '')` as a raw value. -/
def getV (kvs : List (String × PyV)) (k : String) : PyV :=
  (kvs.lookup k).getD (PyV.str "")

/-- `op.get('items', [])` as a list of strings; a non-list value raises in
Python and is outside the modelled domain. -/
def getItems (kvs : List (String × PyV)) : List String :=
  match kvs.lookup "items" with
  | some (PyV.list xs) => xs
  | _ => []

/-- `sorted([f"{k}:{op[k]}" for k in op.keys() if k not in excl])`. -/
def renderedFields (kvs : List (String × PyV)) (excl : List String) : List String :=
  sortStrings ((kvs.filter (fun kv => kv.1 ∉ excl)).map (fun kv => kv.1 ++ ":" ++ kv.2.pyStr))

/-! ## Signature / dedup engine -/

namespace Trello

/-- `create_operation_signature` from `task_extractor_trello.py`.  `Option.none`
is returned exactly on non-mapping input (`not isinstance(op, dict)`). -/
def trelloSigStr (kvs : List (String × PyV)) : String :=
  let op_type := getV kvs "operation"
  if op_type = PyV.str "create" then
    pyLower ("create:" ++ getStr kvs "task" ++ ":" ++ getStr kvs "status" ++ ":"
      ++ getStr kvs "epic" ++ ":" ++ getStr kvs "member")
  else if op_type = PyV.str "update" then
    "update:" ++ getStr kvs "task" ++ ":"
      ++ String.intercalate "," (renderedFields kvs ["operation", "task"])
  else if op_type = PyV.str "rename" then
    "rename:" ++ getStr kvs "old_name" ++ ":" ++ getStr kvs "new_name"
  else if op_type = PyV.str "comment" then
    let comment_text := pyOr (getV kvs "text") (pyOr (getV kvs "description") (getV kvs "comment"))
    let task_name := pyOr (getV kvs "card") (getV kvs "task")
    pyLower ("comment:" ++ task_name.pyStr ++ ":" ++ comment_text.pyStr)
  else if op_type = PyV.str "create_epic" || op_type = PyV.str "assign_epic" then
    op_type.pyStr ++ ":" ++ getStr kvs "task" ++ ":" ++ getStr kvs "epic"
  else if op_type = PyV.str "assign_member" then
    "assign_member:" ++ getStr kvs "task" ++ ":" ++ getStr kvs "member"
  else if op_type = PyV.str "remove_member" then
    "remove_member:" ++ getStr kvs "task" ++ ":" ++ getStr kvs "member"
  else if op_type = PyV.str "create_checklist" then
    let items := getItems kvs
    let items_sig := if items ≠ [] then String.intercalate "," (sortStrings items) else ""
    "create_checklist:" ++ getStr kvs "card" ++ ":" ++ getStr kvs "checklist" ++ ":" ++ items_sig
  else if op_type = PyV.str "update_checklist_item" then
    "update_checklist_item:" ++ getStr kvs "card" ++ ":" ++ getStr kvs "checklist" ++ ":"
      ++ getStr kvs "item" ++ ":" ++ getStr kvs "state"
  else if op_type = PyV.str "delete_checklist_item" then
    "delete_checklist_item:" ++ getStr kvs "card" ++ ":" ++ getStr kvs "checklist" ++ ":"
      ++ getStr kvs "item"
  else if op_type = PyV.str "remove_label" then
    "remove_label:" ++ getStr kvs "task" ++ ":" ++ (pyOr (getV kvs "epic") (getV kvs "label")).pyStr
  else
    op_type.pyStr ++ ":" ++ String.intercalate "," (renderedFields kvs [])

def create_operation_signature : RawOp → Option String
  | RawOp.dict kvs => some (trelloSigStr kvs)
  | RawOp.nonDict => Option.none

/-- `op.get("operation")` with Python `None` default. -/
def opValue : RawOp → PyV
  | RawOp.dict kvs => (kvs.lookup "operation").getD PyV.pnone
  | RawOp.nonDict => PyV.pnone

/-- `op.get('task', '').lower()` for the existing-card dedup check. -/
def taskNameLower : RawOp → String
  | RawOp.dict kvs => pyLower (getStr kvs "task")
  | RawOp.nonDict => ""

/-- The intra-batch filter loop of `extract_tasks_trello` (lines 409–424):
drop operations without a truthy signature, drop signatures already in
`processed_operations`, and drop `create` operations whose lower-cased task
name matches an existing card; kept operations record their signature. -/
def trelloFilter (existing : List String) : List String → List RawOp → List RawOp
  | _, [] => []
  | proc, op :: rest =>
    match create_operation_signature op with
    | Option.none => trelloFilter existing proc rest
    | some s =>
      if s ∈ proc then trelloFilter existing proc rest
      else if opValue op = PyV.str "create" then
        if taskNameLower op ∈ existing then trelloFilter existing proc rest
        else op :: trelloFilter existing (s :: proc) rest
      else op :: trelloFilter existing (s :: proc) rest

/-- `' '.join(word.capitalize() for word in op["epic"].split())` applied when
the `epic` key holds a string (a non-string value raises in Python). -/
def capEpicDict (kvs : List (String × PyV)) : List (String × PyV) :=
  match kvs.lookup "epic" with
  | some (PyV.str e) =>
    let e2 := String.intercalate " " ((pySplitWs e).map pyCapitalize)
    kvs.map (fun kv => if kv.1 = "epic" then ("epic", PyV.str e2) else kv)
  | _ => kvs

def capEpic : RawOp → RawOp
  | RawOp.dict kvs => RawOp.dict (capEpicDict kvs)
  | RawOp.nonDict => RawOp.nonDict

/-- Index of the sequencing bucket an operation falls into: renames, then
label (epic) creations, then creates, then everything else. -/
def trelloGroup (op : RawOp) : Nat :=
  if opValue op = PyV.str "rename" then 0
  else if opValue op = PyV.str "create_epic" then 1
  else if opValue op = PyV.str "create" then 2
  else 3

/-- The reorder block of `extract_tasks_trello` (lines 426–456): renames
first, then `create_epic`, then `create`, then everything else, normalizing
the `epic` field of the last three groups. -/
def trelloReorder (ops : List RawOp) : List RawOp :=
  (ops.filter (fun op => opValue op = PyV.str "rename"))
    ++ (ops.filter (fun op => opValue op = PyV.str "create_epic")).map capEpic
    ++ (ops.filter (fun op => opValue op = PyV.str "create")).map capEpic
    ++ (ops.filter (fun op =>
          opValue op ∉ [PyV.str "rename", PyV.str "create_epic", PyV.str "create"])).map capEpic

end Trello

namespace Linear

/-- `create_operation_signature` from `task_extractor_linear.py`. -/
def linearSigStr (kvs : List (String × PyV)) : String :=
  let op_type := getV kvs "operation"
  if op_type = PyV.str "create" then
    pyLower ("create:" ++ getStr kvs "title" ++ ":" ++ getStr kvs "status" ++ ":"
      ++ getStr kvs "assignee" ++ ":" ++ getStr kvs "priority")
  else if op_type = PyV.str "update" then
    "update:" ++ getStr kvs "title" ++ ":"
      ++ String.intercalate "," (renderedFields kvs ["operation", "title"])
  else if op_type = PyV.str "comment" then
    let comment_text := pyOr (getV kvs "comment") (getV kvs "text")
    pyLower ("comment:" ++ getStr kvs "title" ++ ":" ++ comment_text.pyStr)
  else if op_type = PyV.str "assign" then
    "assign:" ++ getStr kvs "title" ++ ":" ++ getStr kvs "assignee"
  else if op_type = PyV.str "delete" then
    "delete:" ++ getStr kvs "title"
  else
    op_type.pyStr ++ ":" ++ String.intercalate "," (renderedFields kvs [])

def create_operation_signature : RawOp → Option String
  | RawOp.dict kvs => some (linearSigStr kvs)
  | RawOp.nonDict => Option.none

/-- The dedup loop of `extract_tasks_linear` (lines 377–392): duplicates of an
already-seen signature are skipped; operations without a signature are still
included. -/
def linearFilter : List String → List RawOp → List RawOp
  | _, [] => []
  | seen, op :: rest =>
    match create_operation_signature op with
    | some s =>
      if s ∈ seen then linearFilter seen rest
      else op :: linearFilter (s :: seen) rest
    | Option.none => op :: linearFilter seen rest

end Linear

/-- Exact nonnegative rationals kept as unreduced fractions, so that the
similarity-ratio comparisons reduce inside the kernel (Python compares the
corresponding floats; all ratios and thresholds involved are exact). -/
structure Frac where
  num : Nat
  den : Nat
deriving DecidableEq, Repr

/-- `a ≤ b` on fractions with positive denominators, by cross-multiplication. -/
def Frac.fle (a b : Frac) : Bool := a.num * b.den ≤ b.num * a.den

/-- `a < b` on fractions with positive denominators, by cross-multiplication. -/
def Frac.flt (a b : Frac) : Bool := a.num * b.den < b.num * a.den

/-! ## difflib model

`get_best_fuzzy_match` calls `difflib.get_close_matches` and
`difflib.SequenceMatcher.ratio`.  The strings involved are short and contain
no junk characters, so the autojunk/junk machinery of `SequenceMatcher` is
inert; the model below reproduces the Ratcliff–Obershelp matching-block
computation without it. -/

namespace Difflib

/-- Ascending indices of occurrences of `c` in `b` (the `b2j` table). -/
def b2j (b : List Char) (c : Char) : List Nat :=
  (List.range b.length).filter (fun j => b.get? j = some c)

/-- One row of the `find_longest_match` dynamic program: process the match
positions `js` of `a[i]`, building the new `j2len` table and updating the
best block `(besti, bestj, bestsize)`. -/
def flmRow (j2len : List (Nat × Nat)) (best : Nat × Nat × Nat) (i : Nat) (js : List Nat) :
    List (Nat × Nat) × (Nat × Nat × Nat) :=
  js.foldl
    (fun acc j =>
      let k := (if j = 0 then 0 else (j2len.lookup (j - 1)).getD 0) + 1
      let b2 := if k > acc.2.2.2 then (i + 1 - k, j + 1 - k, k) else acc.2
      ((j, k) :: acc.1, b2))
    ([], best)

/-- `SequenceMatcher.find_longest_match` on the window
`[alo, ahi) × [blo, bhi)` (no junk): returns `(besti, bestj, bestsize)`. -/
def findLongestMatch (a b : List Char) (alo ahi blo bhi : Nat) : Nat × Nat × Nat :=
  (((List.range ahi).drop alo).foldl
    (fun (acc : List (Nat × Nat) × (Nat × Nat × Nat)) i =>
      match a.get? i with
      | some c => flmRow acc.1 acc.2 i ((b2j b c).filter (fun j => blo ≤ j && j < bhi))
      | Option.none => ([], acc.2))
    ([], (alo, blo, 0))).2

/-- Total size of all matching blocks (`get_matching_blocks` recursion),
with explicit fuel; the initial fuel `|a| + |b| + 1` always suffices. -/
def matchedTotal (a b : List Char) : Nat → Nat → Nat → Nat → Nat → Nat
  | 0, _, _, _, _ => 0
  | Nat.succ fuel, alo, ahi, blo, bhi =>
    let r := findLongestMatch a b alo ahi blo bhi
    if r.2.2 = 0 then 0
    else r.2.2 + matchedTotal a b fuel alo r.1 blo r.2.1
           + matchedTotal a b fuel (r.1 + r.2.2) ahi (r.2.1 + r.2.2) bhi

/-- `SequenceMatcher(None, a, b).ratio()`: `2·M / (|a| + |b|)`, and 1 when
both strings are empty. -/
def ratio (a b : String) : Frac :=
  let la := a.data.length
  let lb := b.data.length
  if la + lb = 0 then ⟨1, 1⟩
  else ⟨2 * matchedTotal a.data b.data (la + lb + 1) 0 la 0 lb, la + lb⟩

/-- `difflib.get_close_matches(word, possibilities, n=1, cutoff)`: candidates
whose ratio reaches the cutoff, best ratio first, ties resolved like
`heapq.nlargest` on `(ratio, x)` pairs (larger string wins). -/
def getCloseMatches1 (word : String) (possibilities : List String) (cutoff : Frac) : Option String :=
  let scored := possibilities.filterMap (fun x =>
    let r := ratio x word
    if cutoff.fle r then some (r, x) else Option.none)
  match scored with
  | [] => Option.none
  | p :: ps =>
    some ((ps.foldl
      (fun best q =>
        if best.1.flt q.1 then q
        else if q.1.flt best.1 then best
        else if strLeB q.2 best.2 then best else q) p).2)

end Difflib

/-! ## Trello board model and resolvers (`trello_handler.py`) -/

namespace Trello

structure ChecklistItem where
  id : String
  name : String
  state : String
deriving DecidableEq, Repr

structure Checklist where
  id : String
  name : String
  items : List ChecklistItem
deriving DecidableEq, Repr

structure Card where
  id : String
  name : String
  idMembers : List String
  idLabels : List String
  checklists : List Checklist
deriving DecidableEq, Repr

structure TrelloLabel where
  id : String
  name : String
deriving DecidableEq, Repr

structure Member where
  id : String
  fullName : String
  username : String
deriving DecidableEq, Repr

/-- Remote board state: the snapshot the transport layer serves.
`nextLabelId` is the identifier the remote side assigns to the next created
label (label colors are chosen randomly by the source and are not modelled). -/
structure Board where
  cards : List Card
  labels : List TrelloLabel
  members : List Member
  nextLabelId : String
deriving DecidableEq, Repr

/-- `find_card_by_name`: exact (case-insensitive) pass over all cards, then a
substring-containment pass (`card_name.lower() in card_name_on_board.lower()`). -/
def find_card_by_name (cards : List Card) (card_name : String) : Option String :=
  match cards.find? (fun c => pyLower c.name = pyLower card_name) with
  | some c => some c.id
  | Option.none =>
    match cards.find? (fun c => strContains (pyLower c.name) (pyLower card_name)) with
    | some c => some c.id
    | Option.none => Option.none

/-- `find_label_by_name`: exact pass, then containment pass
(`label_name.lower() in label.name.lower()`). -/
def find_label_by_name (labels : List TrelloLabel) (label_name : String) : Option String :=
  match labels.find? (fun l => pyLower l.name = pyLower label_name) with
  | some l => some l.id
  | Option.none =>
    match labels.find? (fun l => strContains (pyLower l.name) (pyLower label_name)) with
    | some l => some l.id
    | Option.none => Option.none

/-- `get_member_id_by_name`: case-insensitive equality with a member's full
name or username. -/
def get_member_id_by_name (members : List Member) (member_name : String) : Option String :=
  (members.find? (fun m =>
    pyLower m.fullName = pyLower member_name || pyLower m.username = pyLower member_name)).map
    (fun m => m.id)

/-- `create_label`: fails on a falsy name, otherwise the remote side adds a
label named exactly `label_name` with a fresh id. -/
def create_label (b : Board) (label_name : String) : Board × Bool :=
  if label_name = "" then (b, false)
  else ({ b with labels := b.labels ++ [⟨b.nextLabelId, label_name⟩] }, true)

/-- `add_label_to_card`: POST `/cards/{card_id}/idLabels`. -/
def add_label_to_card (b : Board) (card_id label_id : String) : Board :=
  { b with cards := b.cards.map (fun c =>
      if c.id = card_id then { c with idLabels := c.idLabels ++ [label_id] } else c) }

/-- `assign_label_to_card`: resolve the card, find the label or create it
(and re-find it), then attach; the attachment result is not inspected. -/
def assign_label_to_card (b : Board) (task epic : String) : Board × Bool :=
  match find_card_by_name b.cards task with
  | Option.none => (b, false)
  | some card_id =>
    match find_label_by_name b.labels epic with
    | some label_id => (add_label_to_card b card_id label_id, true)
    | Option.none =>
      match create_label b epic with
      | (_, false) => (b, false)
      | (b1, true) =>
        match find_label_by_name b1.labels epic with
        | some label_id => (add_label_to_card b1 card_id label_id, true)
        | Option.none => (b1, false)

/-- One removal call of the `assign_member_to_card` loop:
DELETE `/cards/{card_id}/idMembers/{m}`. -/
def removeMemberCall (b : Board) (card_id m : String) : Board :=
  { b with cards := b.cards.map (fun c =>
      if c.id = card_id then { c with idMembers := c.idMembers.erase m } else c) }

/-- `assign_member_to_card`: resolve card and member, fetch the card's
current `idMembers`, remove each of them, then POST the new member.
All transport calls are modelled as succeeding. -/
def assign_member_to_card (b : Board) (task member : String) : Board × Bool :=
  match find_card_by_name b.cards task with
  | Option.none => (b, false)
  | some card_id =>
    match get_member_id_by_name b.members member with
    | Option.none => (b, false)
    | some member_id =>
      let assigned := ((b.cards.find? (fun c => c.id = card_id)).map (fun c => c.idMembers)).getD []
      let b1 := assigned.foldl (fun bb m => removeMemberCall bb card_id m) b
      let b2 := { b1 with cards := b1.cards.map (fun c =>
        if c.id = card_id then { c with idMembers := c.idMembers ++ [member_id] } else c) }
      (b2, true)

/-- Label ids attached to the card `cid` (the card the remote GET returns). -/
def cardLabels (b : Board) (cid : String) : List String :=
  ((b.cards.find? (fun c => c.id = cid)).map (fun c => c.idLabels)).getD []

/-- Member ids assigned to the card `cid`. -/
def cardMembers (b : Board) (cid : String) : List String :=
  ((b.cards.find? (fun c => c.id = cid)).map (fun c => c.idMembers)).getD []

/-- The containment pass of `get_best_fuzzy_match`: first candidate contained
in (or containing) the target whose length ratio reaches the threshold. -/
def containScan (t : String) (threshold : Frac) : List String → Option (String × Frac)
  | [] => Option.none
  | c :: cs =>
    let cl := pyLower c
    if strContains cl t || strContains t cl then
      let sim : Frac := ⟨min t.data.length cl.data.length, max t.data.length cl.data.length⟩
      if threshold.fle sim then some (c, sim) else containScan t threshold cs
    else containScan t threshold cs

/-- `get_best_fuzzy_match(target, candidates, threshold)`: empty guard,
case-insensitive exact pass, containment pass with a length-ratio gate, then
`difflib.get_close_matches` with the threshold as cutoff. -/
def get_best_fuzzy_match (target : String) (candidates : List String) (threshold : Frac) :
    Option String × Frac :=
  if target = "" || candidates = [] then (Option.none, ⟨0, 1⟩)
  else
    let t := pyLower target
    match candidates.find? (fun c => pyLower c = t) with
    | some c => (some c, ⟨1, 1⟩)
    | Option.none =>
      match containScan t threshold candidates with
      | some (c, sim) => (some c, sim)
      | Option.none =>
        match Difflib.getCloseMatches1 t candidates threshold with
        | some best => (some best, Difflib.ratio t (pyLower best))
        | Option.none => (Option.none, ⟨0, 1⟩)

/-- The ordinal words of the positional regexes, in alternation order. -/
def ordinalWords : List String :=
  ["first", "second", "third", "fourth", "fifth", "1st", "2nd", "3rd", "4th", "5th",
   "sixth", "seventh", "eighth", "ninth", "tenth", "6th", "7th", "8th", "9th", "10th"]

/-- The `position_map` dictionaries of the positional lookup helpers. -/
def positionMap : List (String × Nat) :=
  [("first", 0), ("1st", 0), ("second", 1), ("2nd", 1), ("third", 2), ("3rd", 2),
   ("fourth", 3), ("4th", 3), ("fifth", 4), ("5th", 4), ("sixth", 5), ("6th", 5),
   ("seventh", 6), ("7th", 6), ("eighth", 7), ("8th", 7), ("ninth", 8), ("9th", 8),
   ("tenth", 9), ("10th", 9)]

/-- Regex `^(first|…|10th)\s+(noun)$` on the lower-cased reference; returns
the matched ordinal word. -/
def matchOrdinalRef (noun : String) (s : String) : Option String :=
  ordinalWords.find? (fun w =>
    let l := (pyLower s).data
    w.data.isPrefixOf l &&
      (let rest := l.drop w.data.length
       let rest1 := rest.dropWhile pyIsSpace
       decide (rest1.length < rest.length) && rest1 = noun.data))

/-- Regex `^(noun)\s+(\d+)$` on the lower-cased reference; returns the digit
substring of group 1. -/
def matchNounNum (noun : String) (s : String) : Option String :=
  let l := (pyLower s).data
  if noun.data.isPrefixOf l then
    let rest := l.drop noun.data.length
    let rest1 := rest.dropWhile pyIsSpace
    if decide (rest1.length < rest.length) && rest1 ≠ [] && rest1.all Char.isDigit then
      some ⟨rest1⟩
    else Option.none
  else Option.none

/-- `find_checklist_by_position`: parse the position text (ordinal word or
`"checklist N"`), then index into the card's checklist collection; out of
range or unparsable yields no match. -/
def find_checklist_by_position (cards : List Card) (card_id : String) (position_text : String) :
    Option String :=
  let p1 : Int := match positionMap.lookup (pyLower position_text) with
    | some n => (n : Int)
    | Option.none => -1
  let p2 : Int :=
    if p1 = -1 then
      match matchNounNum "checklist" position_text with
      | some ds => (digitsToNat ds.data : Int) - 1
      | Option.none => -1
    else p1
  if p2 = -1 then Option.none
  else
    match cards.find? (fun c => c.id = card_id) with
    | Option.none => Option.none
    | some card =>
      if p2 < 0 then Option.none
      else (card.checklists.get? p2.toNat).map (fun c => c.id)

/-- `find_checklist_by_name`: positional reference branches, then exact
(case-insensitive) name match, then fuzzy match at threshold 0.7, and
finally the single-checklist fallback. -/
def find_checklist_by_name (cards : List Card) (card_id : String) (checklist_name : String) :
    Option String :=
  let r1 := match matchOrdinalRef "checklist" checklist_name with
    | some w => find_checklist_by_position cards card_id w
    | Option.none => Option.none
  match r1 with
  | some cid => some cid
  | Option.none =>
    let r2 :=
      if (matchNounNum "checklist" checklist_name).isSome then
        find_checklist_by_position cards card_id (pyLower checklist_name)
      else Option.none
    match r2 with
    | some cid => some cid
    | Option.none =>
      match cards.find? (fun c => c.id = card_id) with
      | Option.none => Option.none
      | some card =>
        let checklists := card.checklists
        match checklists.find? (fun c => pyLower c.name = pyLower checklist_name) with
        | some c => some c.id
        | Option.none =>
          let fz :=
            if checklists ≠ [] then
              (get_best_fuzzy_match checklist_name (checklists.map (fun c => c.name)) ⟨7, 10⟩).1
            else Option.none
          match fz with
          | some best =>
            match checklists.find? (fun c => c.name = best) with
            | some c => some c.id
            | Option.none =>
              if checklists.length = 1 then (checklists.get? 0).map (fun c => c.id)
              else Option.none
          | Option.none =>
            if checklists.length = 1 then (checklists.get? 0).map (fun c => c.id)
            else Option.none

/-- `find_checklist_item_by_position`: ordinal word, `"item N"`, or a bare
integer (1-based); out of range or unparsable yields no match. -/
def find_checklist_item_by_position (checklists : List Checklist) (checklist_id : String)
    (position_text : String) : Option String :=
  let p1 : Int := match positionMap.lookup (pyLower position_text) with
    | some n => (n : Int)
    | Option.none => -1
  let p2 : Int :=
    if p1 = -1 then
      match matchNounNum "item" position_text with
      | some ds => (digitsToNat ds.data : Int) - 1
      | Option.none => -1
    else p1
  let p3 : Int :=
    if p2 = -1 then
      match pyIntParse position_text with
      | some n => n - 1
      | Option.none => -1
    else p2
  if p3 = -1 then Option.none
  else
    match checklists.find? (fun c => c.id = checklist_id) with
    | Option.none => Option.none
    | some cl =>
      if p3 < 0 then Option.none
      else (cl.items.get? p3.toNat).map (fun it => it.id)

/-- `find_checklist_item_by_name`: positional branches (ordinal word,
`"item N"`, bare digits), then exact (case-insensitive) name match, then
fuzzy match at threshold 0.6.  There is no single-item fallback. -/
def find_checklist_item_by_name (checklists : List Checklist) (checklist_id : String)
    (item_name : String) : Option String :=
  let r1 := match matchOrdinalRef "item" item_name with
    | some w => find_checklist_item_by_position checklists checklist_id w
    | Option.none => Option.none
  match r1 with
  | some iid => some iid
  | Option.none =>
    let r2 := match matchNounNum "item" item_name with
      | some ds => find_checklist_item_by_position checklists checklist_id ds
      | Option.none => Option.none
    match r2 with
    | some iid => some iid
    | Option.none =>
      let r3 :=
        if pyIsDigit item_name then find_checklist_item_by_position checklists checklist_id item_name
        else Option.none
      match r3 with
      | some iid => some iid
      | Option.none =>
        match checklists.find? (fun c => c.id = checklist_id) with
        | Option.none => Option.none
        | some cl =>
          let items := cl.items
          match items.find? (fun it => pyLower it.name = pyLower item_name) with
          | some it => some it.id
          | Option.none =>
            let fz :=
              if items ≠ [] then
                (get_best_fuzzy_match item_name (items.map (fun it => it.name)) ⟨6, 10⟩).1
              else Option.none
            match fz with
            | some best =>
              match items.find? (fun it => it.name = best) with
              | some it => some it.id
              | Option.none => Option.none
            | Option.none => Option.none

end Trello

/-! ## Asana status canonicalization (`task_extractor_asana.canonical_status`) -/

namespace Asana

/-- The keyword buckets of `status_canonical_map` in
`task_extractor_asana.py`, in source (dict insertion) order. -/
def status_canonical_map : List (String × List String) :=
  [("on track", ["on track", "ontrack", "on-track", "on_track", "green",
                 "to do", "todo", "not started", "notstarted", "not-started"]),
   ("at risk", ["at risk", "atrisk", "at-risk", "at_risk", "yellow"]),
   ("off track", ["off track", "offtrack", "off-track", "off_track", "red",
                  "blocked", "stuck", "delayed"])]

/-- `val.lower().replace('-', ' ').replace('_', ' ').strip()`. -/
def normStatusVal (val : String) : String :=
  pyStrip (pyReplaceChar (pyReplaceChar (pyLower val) '-' ' ') '_' ' ')

/-- `canonical_status` from `task_extractor_asana.py`: normalize the value,
then return the first bucket containing it, else the normalized value. -/
def canonical_status (val : String) : String :=
  let v := normStatusVal val
  match status_canonical_map.find? (fun p => v ∈ p.2) with
  | some p => p.1
  | Option.none => v

/-! ### Asana workspace model and handler branches (`asana_handler.py`) -/

structure EnumOpt where
  name : String
  gid : String
deriving DecidableEq, Repr

/-- A project custom-field setting together with the field's enum options. -/
structure FieldDef where
  gid : String
  name : String
  enumOptions : List EnumOpt
deriving DecidableEq, Repr

structure AUser where
  gid : String
  name : String
  email : String
deriving DecidableEq, Repr

structure ASection where
  gid : String
  name : String
deriving DecidableEq, Repr

/-- A remote Asana task.  `customFields` maps a custom-field gid to its
current enum-option gid (`Option.none` value = field cleared). -/
structure ATask where
  gid : String
  name : String
  notes : Option String
  assignee : Option String
  due_on : Option String
  customFields : List (String × Option String)
  sectionGid : Option String
  tags : List String
deriving DecidableEq, Repr

/-- Remote Asana project state (the project the handler's credentials point
at; the workspace-users fallback of `find_user_gid` serves the same list). -/
structure AsanaWS where
  tasks : List ATask
  users : List AUser
  sections : List ASection
  fieldSettings : List FieldDef
deriving DecidableEq, Repr

/-- `find_task_gid_by_name`: one pass over the project's tasks, each task
tested first for case-insensitive equality, then for substring containment
in either direction. -/
def find_task_gid_by_name (title : String) (tasks : List ATask) : Option String :=
  (tasks.find? (fun t =>
    pyLower title = pyLower t.name
      || strContains (pyLower t.name) (pyLower title)
      || strContains (pyLower title) (pyLower t.name))).map (fun t => t.gid)

/-- `find_user_gid`: falsy guard, then case-insensitive equality with a
user's name or email. -/
def find_user_gid (users : List AUser) (assignee : String) : Option String :=
  if assignee = "" then Option.none
  else (users.find? (fun u =>
    pyLower assignee = pyLower u.name || pyLower assignee = pyLower u.email)).map (fun u => u.gid)

/-- `find_section_gid`: falsy guard, then case-insensitive name equality. -/
def find_section_gid (sections : List ASection) (sectionName : String) : Option String :=
  if sectionName = "" then Option.none
  else (sections.find? (fun s => pyLower sectionName = pyLower s.name)).map (fun s => s.gid)

/-- `find_custom_field_gid`: case-insensitive match on the custom-field name
among the project's custom-field settings. -/
def find_custom_field_gid (ws : AsanaWS) (field_name : String) : Option String :=
  (ws.fieldSettings.find? (fun f => pyLower field_name = pyLower f.name)).map (fun f => f.gid)

/-- `get_enum_gid_for_priority`: resolve the `priority` field, then match the
value case-insensitively against the field's enum options. -/
def get_enum_gid_for_priority (ws : AsanaWS) (priority_value : String) :
    Option String × Option String :=
  match find_custom_field_gid ws "priority" with
  | Option.none => (Option.none, Option.none)
  | some fg =>
    let opts := ((ws.fieldSettings.find? (fun f => f.gid = fg)).map (fun f => f.enumOptions)).getD []
    (some fg, (opts.find? (fun o => pyLower o.name = pyLower priority_value)).map (fun o => o.gid))

/-- The status-variant buckets of `get_enum_gid_for_status` in
`asana_handler.py` (narrower than the extractor's canonical map). -/
def handlerStatusMap : List (String × List String) :=
  [("on track", ["on track", "ontrack", "on-track", "on_track", "green"]),
   ("at risk", ["at risk", "atrisk", "at-risk", "at_risk", "yellow"]),
   ("off track", ["off track", "offtrack", "off-track", "off_track", "red"])]

/-- `get_enum_gid_for_status`: resolve the `status` field, then direct
normalized match, then variant-bucket match, then substring match. -/
def get_enum_gid_for_status (ws : AsanaWS) (status_value : String) :
    Option String × Option String :=
  match find_custom_field_gid ws "status" with
  | Option.none => (Option.none, Option.none)
  | some fg =>
    let opts := ((ws.fieldSettings.find? (fun f => f.gid = fg)).map (fun f => f.enumOptions)).getD []
    let nv := normStatusVal status_value
    match opts.find? (fun o => normStatusVal o.name = nv) with
    | some o => (some fg, some o.gid)
    | Option.none =>
      let byVariant := match handlerStatusMap.find? (fun p => nv ∈ p.2) with
        | some p => opts.find? (fun o : EnumOpt => normStatusVal o.name = p.1)
        | Option.none => (Option.none : Option EnumOpt)
      match byVariant with
      | some o => (some fg, some o.gid)
      | Option.none =>
        match opts.find? (fun o => strContains (pyLower o.name) nv) with
        | some o => (some fg, some o.gid)
        | Option.none => (some fg, Option.none)

/-- PUT `custom_fields: {g: v}`: set (or insert) the stored value of custom
field `g`. -/
def setCF (cfs : List (String × Option String)) (g : String) (v : Option String) :
    List (String × Option String) :=
  if (cfs.lookup g).isSome then cfs.map (fun p => if p.1 = g then (g, v) else p)
  else cfs ++ [(g, v)]

/-- Apply `f` to every task whose gid is `gid`. -/
def updTasks (tasks : List ATask) (gid : String) (f : ATask → ATask) : List ATask :=
  tasks.map (fun t => if t.gid = gid then f t else t)

/-- PUT `custom_fields` on one task. -/
def setTaskCF (ws : AsanaWS) (gid fg : String) (v : Option String) : AsanaWS :=
  { ws with tasks := updTasks ws.tasks gid (fun t => { t with customFields := setCF t.customFields fg v }) }

/-- The update-operation payload of `handle_task_operations_asana`.  For the
clearable fields `priority` and `status` the outer `Option` models key
presence and the inner `Option` models JSON null, mirroring the handler's
`'priority' in op` / sentinel-default checks; the remaining fields are only
ever truthiness-tested, so absent and null coincide. -/
structure UpdateOp where
  target_task : String
  new_title : Option String
  description : Option String
  assignee : Option String
  due_date : Option String
  priority : Option (Option String)
  status : Option (Option String)
  sectionName : Option String
deriving DecidableEq, Repr

/-- Python `str(priority)` for the modelled priority value. -/
def priorityStr (pv : Option String) : String :=
  match pv with
  | some s => s
  | Option.none => "None"

/-- The data dict of the update branch primary PUT applied to one task:
name (guarded by `new_title and new_title != "None"`), notes, assignee
(resolved via `find_user_gid`), and due date. -/
def primaryUpdateTask (users : List AUser) (op : UpdateOp) (t0 : ATask) : ATask :=
  let t1 := match op.new_title with
    | some nt => if nt ≠ "" && nt ≠ "None" then { t0 with name := nt } else t0
    | Option.none => t0
  let t2 := match op.description with
    | some d => if d ≠ "" then { t1 with notes := some d } else t1
    | Option.none => t1
  let t3 := match op.assignee with
    | some a =>
      if a ≠ "" then
        match find_user_gid users a with
        | some ug => { t2 with assignee := some ug }
        | Option.none => t2
      else t2
    | Option.none => t2
  match op.due_date with
  | some d => if d ≠ "" then { t3 with due_on := some d } else t3
  | Option.none => t3

/-- The update branch primary PUT on the resolved task. -/
def primaryPut (ws : AsanaWS) (op : UpdateOp) (task_gid : String) : AsanaWS :=
  { ws with tasks := updTasks ws.tasks task_gid (primaryUpdateTask ws.users op) }

/-- The priority custom-field step of the update branch (lines 359–380):
runs only when the `priority` key is present; a truthy non-"none" value is
matched against the enum options and set, an explicit null (or the string
"none"/"None") removes the field value, anything else changes nothing. -/
def priorityStep (ws : AsanaWS) (op : UpdateOp) (task_gid : String) : AsanaWS :=
  match op.priority with
  | Option.none => ws
  | some pv =>
    if pv.getD "" ≠ "" && pyLower (priorityStr pv) ≠ "none" then
      match get_enum_gid_for_priority ws (pv.getD "") with
      | (some fg, some eg) => setTaskCF ws task_gid fg (some eg)
      | _ => ws
    else if pv = Option.none || pyLower (pv.getD "") = "none" then
      match find_custom_field_gid ws "priority" with
      | some fg => setTaskCF ws task_gid fg Option.none
      | Option.none => ws
    else ws

/-- The status custom-field step of the update branch (lines 381–403):
runs only when the `status` key is present; null removes the field value,
otherwise the value is resolved through `get_enum_gid_for_status` and set. -/
def statusStep (ws : AsanaWS) (op : UpdateOp) (task_gid : String) : AsanaWS :=
  match op.status with
  | Option.none => ws
  | some Option.none =>
    match find_custom_field_gid ws "status" with
    | some fg => setTaskCF ws task_gid fg Option.none
    | Option.none => ws
  | some (some s) =>
    match get_enum_gid_for_status ws s with
    | (some fg, some eg) => setTaskCF ws task_gid fg (some eg)
    | _ => ws

/-- The section move of the update branch (lines 404–408): only when a
section is given and the status value is falsy. -/
def sectionStep (ws : AsanaWS) (op : UpdateOp) (task_gid : String) : AsanaWS :=
  let statusFalsy : Bool := match op.status with
    | some (some s) => s == ""
    | _ => true
  match op.sectionName with
  | some sec =>
    if sec ≠ "" && statusFalsy then
      match find_section_gid ws.sections sec with
      | some sg => { ws with tasks := updTasks ws.tasks task_gid (fun t => { t with sectionGid := some sg }) }
      | Option.none => ws
    else ws
  | Option.none => ws

/-- The `update` branch of `handle_task_operations_asana` (lines 329–412) as
a state transition, with every transport call succeeding: resolve the target
task, apply the primary PUT (name, notes, assignee, due date), then the
priority custom-field step (guarded by key presence, lines 359–380), then
the status custom-field step, then the section move. -/
def applyUpdate (ws : AsanaWS) (op : UpdateOp) : AsanaWS × Bool :=
  match find_task_gid_by_name op.target_task ws.tasks with
  | Option.none => (ws, false)
  | some task_gid =>
    (sectionStep (statusStep (priorityStep (primaryPut ws op task_gid) op task_gid)
      op task_gid) op task_gid, true)

/-- The per-operation result dictionaries appended by the Asana handler. -/
structure AResult where
  success : Bool
  operation : String
  task : String
  gid : Option String
  error : Option String
deriving DecidableEq, Repr

/-- The `add_tag` branch of `handle_task_operations_asana` (lines 630–646):
resolve the task, then report success without performing any label
mutation (the branch issues no further remote call). -/
def add_tag (ws : AsanaWS) (target_task tag : String) : AsanaWS × AResult :=
  match find_task_gid_by_name target_task ws.tasks with
  | Option.none => (ws, ⟨false, "add_tag", target_task, Option.none, some "Task not found"⟩)
  | some gid =>
    if tag ≠ "" then (ws, ⟨true, "add_tag", target_task, some gid, Option.none⟩)
    else (ws, ⟨false, "add_tag", target_task, Option.none, some "No tag specified"⟩)

/-- The `remove_tag` branch of `handle_task_operations_asana` (lines
649–664): resolve the task, then report success without performing any
label mutation. -/
def remove_tag (ws : AsanaWS) (target_task tag : String) : AsanaWS × AResult :=
  match find_task_gid_by_name target_task ws.tasks with
  | Option.none => (ws, ⟨false, "remove_tag", target_task, Option.none, some "Task not found"⟩)
  | some gid =>
    if tag ≠ "" then (ws, ⟨true, "remove_tag", target_task, some gid, Option.none⟩)
    else (ws, ⟨false, "remove_tag", target_task, Option.none, some "No tag specified"⟩)

/-- Effective value of custom field `fg` on the first task with gid `gid`. -/
def taskCF (ws : AsanaWS) (gid fg : String) : Option String :=
  ((((ws.tasks.find? (fun t => t.gid = gid)).map (fun t => t.customFields)).getD []).lookup fg).join

/-- Remote tag list of the first task with gid `gid`. -/
def taskTags (ws : AsanaWS) (gid : String) : List String :=
  ((ws.tasks.find? (fun t => t.gid = gid)).map (fun t => t.tags)).getD []

/-- `op.get('intent') == 'delete'` on a raw Asana operation object. -/
def isDeleteOp (op : List (String × PyV)) : Bool :=
  op.lookup "intent" = some (PyV.str "delete")

/-- The final post-processing step of `extract_tasks_asana` (lines 322–325):
move all delete operations to the end, preserving relative order. -/
def moveDeletesLast (ops : List (List (String × PyV))) : List (List (String × PyV)) :=
  (ops.filter (fun op => ¬ isDeleteOp op)) ++ ops.filter isDeleteOp

end Asana

end Agilow

open Agilow

/-! ## Helper lemmas -/

lemma sorted_le_of_all_eq {l : List Nat} {c : Nat} (h : ∀ x ∈ l, x = c) :
    l.Sorted (· ≤ ·) := by
  induction l with
  | nil => exact List.sorted_nil
  | cons a t ih =>
    refine List.Pairwise.cons ?_ (ih (fun x hx => h x (List.mem_cons_of_mem a hx)))
    intro b hb
    rw [h a (List.mem_cons_self a t), h b (List.mem_cons_of_mem a hb)]

lemma sorted_four_blocks (B0 B1 B2 B3 : List Nat)
    (h0 : ∀ x ∈ B0, x = 0) (h1 : ∀ x ∈ B1, x = 1)
    (h2 : ∀ x ∈ B2, x = 2) (h3 : ∀ x ∈ B3, x = 3) :
    (B0 ++ B1 ++ B2 ++ B3).Sorted (· ≤ ·) := by
  refine List.pairwise_append.mpr ⟨List.pairwise_append.mpr
    ⟨List.pairwise_append.mpr ⟨sorted_le_of_all_eq h0, sorted_le_of_all_eq h1, ?_⟩,
     sorted_le_of_all_eq h2, ?_⟩, sorted_le_of_all_eq h3, ?_⟩
  · intro x hx y hy
    rw [h0 x hx, h1 y hy]
    omega
  · intro x hx y hy
    rcases List.mem_append.mp hx with hx | hx
    · rw [h0 x hx, h2 y hy]; omega
    · rw [h1 x hx, h2 y hy]; omega
  · intro x hx y hy
    rcases List.mem_append.mp hx with hx | hx
    · rcases List.mem_append.mp hx with hx | hx
      · rw [h0 x hx, h3 y hy]; omega
      · rw [h1 x hx, h3 y hy]; omega
    · rw [h2 x hx, h3 y hy]; omega

lemma append_block_index {α : Type} (A B : List α) (p : α → Bool)
    (hA : ∀ x ∈ A, p x = false) (hB : ∀ x ∈ B, p x = true)
    (i j : Nat) (hi : i < (A ++ B).length) (hj : j < (A ++ B).length)
    (hpi : p ((A ++ B)[i]) = true) (hpj : p ((A ++ B)[j]) = false) :
    j < i := by
  have h1 : A.length ≤ i := by
    by_contra hc
    push_neg at hc
    have e : (A ++ B)[i] = A[i] := List.getElem_append_left hc
    have hmem : (A ++ B)[i] ∈ A := by
      rw [e]
      exact List.getElem_mem hc
    rw [hA _ hmem] at hpi
    cases hpi
  have h2 : j < A.length := by
    by_contra hc
    push_neg at hc
    have hjb : j - A.length < B.length := by
      simp only [List.length_append] at hj
      omega
    have e : (A ++ B)[j] = B[j - A.length] := List.getElem_append_right hc
    have hmem : (A ++ B)[j] ∈ B := by
      rw [e]
      exact List.getElem_mem hjb
    rw [hB _ hmem] at hpj
    cases hpj
  omega

lemma lookup_cons_pyv (a b : String) (v : PyV) (es : List (String × PyV)) :
    List.lookup a ((b, v) :: es) = if a == b then some v else List.lookup a es := by
  simp only [List.lookup]
  cases a == b <;> rfl

lemma lookup_map_epic (kvs : List (String × PyV)) (v : PyV) (k : String) (hk : k ≠ "epic") :
    (kvs.map (fun kv => if kv.1 = "epic" then ("epic", v) else kv)).lookup k = kvs.lookup k := by
  induction kvs with
  | nil => rfl
  | cons p tl ih =>
    obtain ⟨k0, v0⟩ := p
    by_cases h : k0 = "epic"
    · subst h
      have hb : (k == "epic") = false := by simp [hk]
      simp [List.map_cons, lookup_cons_pyv, hb, ih]
    · simp only [List.map_cons, if_neg h, lookup_cons_pyv, ih]

lemma opValue_capEpic (op : RawOp) :
    Trello.opValue (Trello.capEpic op) = Trello.opValue op := by
  cases op with
  | nonDict => rfl
  | dict kvs =>
    show ((Trello.capEpicDict kvs).lookup "operation").getD PyV.pnone
        = (kvs.lookup "operation").getD PyV.pnone
    unfold Trello.capEpicDict
    cases h : kvs.lookup "epic" with
    | none => rfl
    | some v =>
      cases v with
      | str e => rw [lookup_map_epic _ _ _ (by decide)]
      | list xs => rfl
      | pnone => rfl

lemma trelloGroup_capEpic (op : RawOp) :
    Trello.trelloGroup (Trello.capEpic op) = Trello.trelloGroup op := by
  unfold Trello.trelloGroup
  rw [opValue_capEpic]

lemma trelloGroup_eq_zero_iff (op : RawOp) :
    Trello.trelloGroup op = 0 ↔ Trello.opValue op = PyV.str "rename" := by
  unfold Trello.trelloGroup
  split
  · simp_all
  · split
    · simp_all
    · split <;> simp_all

lemma trelloGroup_eq_one_iff (op : RawOp) :
    Trello.trelloGroup op = 1 ↔ Trello.opValue op = PyV.str "create_epic" := by
  unfold Trello.trelloGroup
  split
  · simp_all
  · split
    · simp_all
    · split <;> simp_all

lemma trelloGroup_eq_two_iff (op : RawOp) :
    Trello.trelloGroup op = 2 ↔ Trello.opValue op = PyV.str "create" := by
  unfold Trello.trelloGroup
  split
  · simp_all
  · split
    · simp_all
    · split <;> simp_all

lemma trelloGroup_eq_three_iff (op : RawOp) :
    Trello.trelloGroup op = 3 ↔
      Trello.opValue op ∉ [PyV.str "rename", PyV.str "create_epic", PyV.str "create"] := by
  unfold Trello.trelloGroup
  split
  · simp_all
  · split
    · simp_all
    · split <;> simp_all

lemma trelloFilter_sig_not_mem (existing : List String) :
    ∀ (ops : List RawOp) (proc : List String) (s : String),
      s ∈ (Trello.trelloFilter existing proc ops).filterMap Trello.create_operation_signature →
      s ∉ proc := by
  intro ops
  induction ops with
  | nil =>
    intro proc s hs
    simp [Trello.trelloFilter] at hs
  | cons op rest ih =>
    intro proc s hs
    cases hsig : Trello.create_operation_signature op with
    | none =>
      rw [show Trello.trelloFilter existing proc (op :: rest)
          = Trello.trelloFilter existing proc rest by simp [Trello.trelloFilter, hsig]] at hs
      exact ih proc s hs
    | some s0 =>
      by_cases hmem : s0 ∈ proc
      · rw [show Trello.trelloFilter existing proc (op :: rest)
            = Trello.trelloFilter existing proc rest by
          simp [Trello.trelloFilter, hsig, hmem]] at hs
        exact ih proc s hs
      · by_cases hcr : Trello.opValue op = PyV.str "create"
        · by_cases hex : Trello.taskNameLower op ∈ existing
          · rw [show Trello.trelloFilter existing proc (op :: rest)
                = Trello.trelloFilter existing proc rest by
              simp [Trello.trelloFilter, hsig, hmem, hcr, hex]] at hs
            exact ih proc s hs
          · rw [show Trello.trelloFilter existing proc (op :: rest)
                = op :: Trello.trelloFilter existing (s0 :: proc) rest by
              simp [Trello.trelloFilter, hsig, hmem, hcr, hex]] at hs
            rw [List.filterMap_cons] at hs
            rw [hsig] at hs
            rcases List.mem_cons.mp hs with h | h
            · subst h
              exact hmem
            · intro hc
              exact ih (s0 :: proc) s h (List.mem_cons_of_mem s0 hc)
        · rw [show Trello.trelloFilter existing proc (op :: rest)
              = op :: Trello.trelloFilter existing (s0 :: proc) rest by
            simp [Trello.trelloFilter, hsig, hmem, hcr]] at hs
          rw [List.filterMap_cons] at hs
          rw [hsig] at hs
          rcases List.mem_cons.mp hs with h | h
          · subst h
            exact hmem
          · intro hc
            exact ih (s0 :: proc) s h (List.mem_cons_of_mem s0 hc)

lemma trelloFilter_sigs_nodup (existing : List String) :
    ∀ (ops : List RawOp) (proc : List String),
      ((Trello.trelloFilter existing proc ops).filterMap
        Trello.create_operation_signature).Nodup := by
  intro ops
  induction ops with
  | nil =>
    intro proc
    simp [Trello.trelloFilter]
  | cons op rest ih =>
    intro proc
    cases hsig : Trello.create_operation_signature op with
    | none =>
      rw [show Trello.trelloFilter existing proc (op :: rest)
          = Trello.trelloFilter existing proc rest by simp [Trello.trelloFilter, hsig]]
      exact ih proc
    | some s0 =>
      by_cases hmem : s0 ∈ proc
      · rw [show Trello.trelloFilter existing proc (op :: rest)
            = Trello.trelloFilter existing proc rest by
          simp [Trello.trelloFilter, hsig, hmem]]
        exact ih proc
      · by_cases hcr : Trello.opValue op = PyV.str "create"
        · by_cases hex : Trello.taskNameLower op ∈ existing
          · rw [show Trello.trelloFilter existing proc (op :: rest)
                = Trello.trelloFilter existing proc rest by
              simp [Trello.trelloFilter, hsig, hmem, hcr, hex]]
            exact ih proc
          · rw [show Trello.trelloFilter existing proc (op :: rest)
                = op :: Trello.trelloFilter existing (s0 :: proc) rest by
              simp [Trello.trelloFilter, hsig, hmem, hcr, hex]]
            rw [List.filterMap_cons, hsig]
            refine List.Nodup.cons ?_ (ih (s0 :: proc))
            intro hc
            exact trelloFilter_sig_not_mem existing rest (s0 :: proc) s0 hc
              (List.mem_cons_self s0 proc)
        · rw [show Trello.trelloFilter existing proc (op :: rest)
              = op :: Trello.trelloFilter existing (s0 :: proc) rest by
            simp [Trello.trelloFilter, hsig, hmem, hcr]]
          rw [List.filterMap_cons, hsig]
          refine List.Nodup.cons ?_ (ih (s0 :: proc))
          intro hc
          exact trelloFilter_sig_not_mem existing rest (s0 :: proc) s0 hc
            (List.mem_cons_self s0 proc)

lemma linearFilter_sig_not_mem :
    ∀ (ops : List RawOp) (seen : List String) (s : String),
      s ∈ (Linear.linearFilter seen ops).filterMap Linear.create_operation_signature →
      s ∉ seen := by
  intro ops
  induction ops with
  | nil =>
    intro seen s hs
    simp [Linear.linearFilter] at hs
  | cons op rest ih =>
    intro seen s hs
    cases hsig : Linear.create_operation_signature op with
    | none =>
      rw [show Linear.linearFilter seen (op :: rest)
          = op :: Linear.linearFilter seen rest by simp [Linear.linearFilter, hsig]] at hs
      rw [List.filterMap_cons, hsig] at hs
      exact ih seen s hs
    | some s0 =>
      by_cases hmem : s0 ∈ seen
      · rw [show Linear.linearFilter seen (op :: rest)
            = Linear.linearFilter seen rest by simp [Linear.linearFilter, hsig, hmem]] at hs
        exact ih seen s hs
      · rw [show Linear.linearFilter seen (op :: rest)
            = op :: Linear.linearFilter (s0 :: seen) rest by
          simp [Linear.linearFilter, hsig, hmem]] at hs
        rw [List.filterMap_cons, hsig] at hs
        rcases List.mem_cons.mp hs with h | h
        · subst h
          exact hmem
        · intro hc
          exact ih (s0 :: seen) s h (List.mem_cons_of_mem s0 hc)

lemma linearFilter_sigs_nodup :
    ∀ (ops : List RawOp) (seen : List String),
      ((Linear.linearFilter seen ops).filterMap Linear.create_operation_signature).Nodup := by
  intro ops
  induction ops with
  | nil =>
    intro seen
    simp [Linear.linearFilter]
  | cons op rest ih =>
    intro seen
    cases hsig : Linear.create_operation_signature op with
    | none =>
      rw [show Linear.linearFilter seen (op :: rest)
          = op :: Linear.linearFilter seen rest by simp [Linear.linearFilter, hsig]]
      rw [List.filterMap_cons, hsig]
      exact ih seen
    | some s0 =>
      by_cases hmem : s0 ∈ seen
      · rw [show Linear.linearFilter seen (op :: rest)
            = Linear.linearFilter seen rest by simp [Linear.linearFilter, hsig, hmem]]
        exact ih seen
      · rw [show Linear.linearFilter seen (op :: rest)
            = op :: Linear.linearFilter (s0 :: seen) rest by
          simp [Linear.linearFilter, hsig, hmem]]
        rw [List.filterMap_cons, hsig]
        refine List.Nodup.cons ?_ (ih (s0 :: seen))
        intro hc
        exact linearFilter_sig_not_mem rest (s0 :: seen) s0 hc (List.mem_cons_self s0 seen)

lemma linearFilter_none_kept :
    ∀ (ops : List RawOp) (seen : List String) (op : RawOp), op ∈ ops →
      Linear.create_operation_signature op = Option.none →
      op ∈ Linear.linearFilter seen ops := by
  intro ops
  induction ops with
  | nil =>
    intro seen op hop
    cases hop
  | cons x rest ih =>
    intro seen op hop hnone
    rcases List.mem_cons.mp hop with h | h
    · subst h
      rw [show Linear.linearFilter seen (op :: rest)
          = op :: Linear.linearFilter seen rest by simp [Linear.linearFilter, hnone]]
      exact List.mem_cons_self op _
    · cases hsig : Linear.create_operation_signature x with
      | none =>
        rw [show Linear.linearFilter seen (x :: rest)
            = x :: Linear.linearFilter seen rest by simp [Linear.linearFilter, hsig]]
        exact List.mem_cons_of_mem x (ih seen op h hnone)
      | some s0 =>
        by_cases hmem : s0 ∈ seen
        · rw [show Linear.linearFilter seen (x :: rest)
              = Linear.linearFilter seen rest by simp [Linear.linearFilter, hsig, hmem]]
          exact ih seen op h hnone
        · rw [show Linear.linearFilter seen (x :: rest)
              = x :: Linear.linearFilter (s0 :: seen) rest by
            simp [Linear.linearFilter, hsig, hmem]]
          exact List.mem_cons_of_mem x (ih (s0 :: seen) op h hnone)

lemma linearFilter_first_kept :
    ∀ (pre : List RawOp) (seen : List String) (post : List RawOp) (op : RawOp) (s : String),
      Linear.create_operation_signature op = some s → s ∉ seen →
      (∀ p ∈ pre, Linear.create_operation_signature p ≠ some s) →
      op ∈ Linear.linearFilter seen (pre ++ op :: post) := by
  intro pre
  induction pre with
  | nil =>
    intro seen post op s hsig hseen _
    rw [List.nil_append]
    rw [show Linear.linearFilter seen (op :: post)
        = op :: Linear.linearFilter (s :: seen) post by simp [Linear.linearFilter, hsig, hseen]]
    exact List.mem_cons_self op _
  | cons p pre ih =>
    intro seen post op s hsig hseen hpre
    rw [List.cons_append]
    cases hps : Linear.create_operation_signature p with
    | none =>
      rw [show Linear.linearFilter seen (p :: (pre ++ op :: post))
          = p :: Linear.linearFilter seen (pre ++ op :: post) by
        simp [Linear.linearFilter, hps]]
      exact List.mem_cons_of_mem p
        (ih seen post op s hsig hseen (fun q hq => hpre q (List.mem_cons_of_mem p hq)))
    | some s0 =>
      by_cases hmem : s0 ∈ seen
      · rw [show Linear.linearFilter seen (p :: (pre ++ op :: post))
            = Linear.linearFilter seen (pre ++ op :: post) by
          simp [Linear.linearFilter, hps, hmem]]
        exact ih seen post op s hsig hseen (fun q hq => hpre q (List.mem_cons_of_mem p hq))
      · rw [show Linear.linearFilter seen (p :: (pre ++ op :: post))
            = p :: Linear.linearFilter (s0 :: seen) (pre ++ op :: post) by
          simp [Linear.linearFilter, hps, hmem]]
        refine List.mem_cons_of_mem p (ih (s0 :: seen) post op s hsig ?_
          (fun q hq => hpre q (List.mem_cons_of_mem p hq)))
        intro hc
        rcases List.mem_cons.mp hc with h | h
        · exact hpre p (List.mem_cons_self p pre) (by rw [hps, h])
        · exact hseen h

/-! ## Claim theorems -/

/-- C5: contrary to the spec's "empty reference returns no-match" contract,
both card/task lookups return the first existing entity's identifier when the
reference is the empty string, because the empty string is a Python substring
of every name.  This evaluates the embedded resolvers at the failing input. -/
theorem empty_reference_resolves_to_first_entity :
    Trello.find_card_by_name [⟨"c1", "Fix login bug", [], [], []⟩] "" = some "c1"
    ∧ Asana.find_task_gid_by_name ""
        [⟨"g1", "Fix login bug", Option.none, Option.none, Option.none, [], Option.none, []⟩]
      = some "g1" :=
  ⟨by decide, by decide⟩

/-- C7 counterexample: `canonical_status` does not return unrecognized input
unchanged — it lower-cases and separator-normalizes it ("Purple" ↦ "purple"),
even though "Purple" belongs to no canonical bucket. -/
theorem canonical_status_not_identity_on_unrecognized :
    Asana.canonical_status "Purple" = "purple"
    ∧ Asana.canonical_status "Purple" ≠ "Purple"
    ∧ Asana.status_canonical_map.find?
        (fun p => Asana.normStatusVal "Purple" ∈ p.2) = Option.none := by
  refine ⟨by decide, by decide, by decide⟩

/-- C7 (amended): "on-track", "ontrack" and "green" all canonicalize to
"on track", "purple" is returned unchanged, and in general an input whose
normalized form (lower-case, `-`/`_` → space, stripped) is in no bucket is
returned in that normalized form rather than unchanged. -/
theorem canonical_status_buckets_and_normalized_passthrough :
    (Asana.canonical_status "on-track" = "on track"
     ∧ Asana.canonical_status "ontrack" = "on track"
     ∧ Asana.canonical_status "green" = "on track"
     ∧ Asana.canonical_status "purple" = "purple")
    ∧ ∀ s, Asana.status_canonical_map.find? (fun p => Asana.normStatusVal s ∈ p.2) = Option.none →
        Asana.canonical_status s = Asana.normStatusVal s := by
  constructor
  · exact ⟨by decide, by decide, by decide, by decide⟩
  · intro s h
    simp only [Asana.canonical_status, h]

/-- C7 witness: the pass-through clause applied at "Purple". -/
theorem canonical_status_passthrough_witness :
    (Asana.status_canonical_map.find?
       (fun p => Asana.normStatusVal "Purple" ∈ p.2) = Option.none)
    ∧ Asana.canonical_status "Purple" = Asana.normStatusVal "Purple" :=
  ⟨by decide, canonical_status_buckets_and_normalized_passthrough.2 "Purple" (by decide)⟩

/-- C2 counterexample: the Trello sequencer does not special-case deletes:
a delete followed by a comment stays in that order, so a delete is handed to
the Applier before a non-delete. -/
theorem trello_sequencer_delete_not_last :
    Trello.trelloReorder
        [RawOp.dict [("operation", PyV.str "delete"), ("task", PyV.str "Old task")],
         RawOp.dict [("operation", PyV.str "comment"), ("task", PyV.str "Other"),
                     ("comment", PyV.str "hi")]]
      = [RawOp.dict [("operation", PyV.str "delete"), ("task", PyV.str "Old task")],
         RawOp.dict [("operation", PyV.str "comment"), ("task", PyV.str "Other"),
                     ("comment", PyV.str "hi")]]
    ∧ Trello.opValue (RawOp.dict [("operation", PyV.str "delete"), ("task", PyV.str "Old task")])
        = PyV.str "delete"
    ∧ Trello.opValue (RawOp.dict [("operation", PyV.str "comment"), ("task", PyV.str "Other"),
                     ("comment", PyV.str "hi")])
        ≠ PyV.str "delete" := by
  refine ⟨rfl, rfl, by decide⟩

/-- C2 (amended): the delete-last invariant holds for the Asana extractor's
final post-processing step: in its output, every delete operation sits at a
strictly later position than every non-delete operation.  (The Trello
sequencer, by contrast, leaves deletes inside the "everything else" group;
see the counterexample.) -/
theorem asana_extractor_moves_deletes_last (ops : List (List (String × PyV))) (i j : Nat)
    (hi : i < (Asana.moveDeletesLast ops).length) (hj : j < (Asana.moveDeletesLast ops).length)
    (hdel : Asana.isDeleteOp ((Asana.moveDeletesLast ops)[i]) = true)
    (hnon : Asana.isDeleteOp ((Asana.moveDeletesLast ops)[j]) = false) :
    j < i := by
  refine append_block_index (ops.filter (fun op => ¬ Asana.isDeleteOp op))
    (ops.filter Asana.isDeleteOp) Asana.isDeleteOp ?_ ?_ i j hi hj hdel hnon
  · intro x hx
    simpa using (List.mem_filter.mp hx).2
  · intro x hx
    exact (List.mem_filter.mp hx).2

/-- C3 counterexample: the Linear extractor performs no grouping at all — a
batch containing a create followed by a rename is handed to the Applier in
that original order, so rename operations do not come first. -/
theorem linear_extractor_applies_no_grouping :
    Linear.linearFilter []
        [RawOp.dict [("operation", PyV.str "create"), ("title", PyV.str "A")],
         RawOp.dict [("operation", PyV.str "rename"), ("title", PyV.str "B")]]
      = [RawOp.dict [("operation", PyV.str "create"), ("title", PyV.str "A")],
         RawOp.dict [("operation", PyV.str "rename"), ("title", PyV.str "B")]]
    ∧ Trello.opValue (RawOp.dict [("operation", PyV.str "rename"), ("title", PyV.str "B")])
        = PyV.str "rename"
    ∧ Trello.opValue (RawOp.dict [("operation", PyV.str "create"), ("title", PyV.str "A")])
        ≠ PyV.str "rename" := by
  refine ⟨by decide, rfl, by decide⟩

/-- C3 (amended): the grouping contract holds for the Trello sequencer: its
output is ordered by bucket (renames, then epic creations, then creates,
then everything else), and each bucket is exactly the input's subsequence
for that bucket in original relative order (the last three buckets modulo the
sequencer's own epic-name capitalization).  The Linear extractor applies no
such grouping (see the counterexample). -/
theorem trello_sequencer_grouping (ops : List RawOp) :
    ((Trello.trelloReorder ops).map Trello.trelloGroup).Sorted (· ≤ ·)
    ∧ (Trello.trelloReorder ops).filter (fun op => Trello.trelloGroup op = 0)
        = ops.filter (fun op => Trello.trelloGroup op = 0)
    ∧ (Trello.trelloReorder ops).filter (fun op => Trello.trelloGroup op = 1)
        = (ops.filter (fun op => Trello.trelloGroup op = 1)).map Trello.capEpic
    ∧ (Trello.trelloReorder ops).filter (fun op => Trello.trelloGroup op = 2)
        = (ops.filter (fun op => Trello.trelloGroup op = 2)).map Trello.capEpic
    ∧ (Trello.trelloReorder ops).filter (fun op => Trello.trelloGroup op = 3)
        = (ops.filter (fun op => Trello.trelloGroup op = 3)).map Trello.capEpic := by
  have hmem0 : ∀ x ∈ ops.filter (fun op => Trello.opValue op = PyV.str "rename"),
      Trello.trelloGroup x = 0 := by
    intro x hx
    exact (trelloGroup_eq_zero_iff x).mpr (by simpa using (List.mem_filter.mp hx).2)
  have hmem1 : ∀ x ∈ (ops.filter (fun op => Trello.opValue op = PyV.str "create_epic")).map
      Trello.capEpic, Trello.trelloGroup x = 1 := by
    intro x hx
    rcases List.mem_map.mp hx with ⟨y, hy, rfl⟩
    rw [trelloGroup_capEpic]
    exact (trelloGroup_eq_one_iff y).mpr (by simpa using (List.mem_filter.mp hy).2)
  have hmem2 : ∀ x ∈ (ops.filter (fun op => Trello.opValue op = PyV.str "create")).map
      Trello.capEpic, Trello.trelloGroup x = 2 := by
    intro x hx
    rcases List.mem_map.mp hx with ⟨y, hy, rfl⟩
    rw [trelloGroup_capEpic]
    exact (trelloGroup_eq_two_iff y).mpr (by simpa using (List.mem_filter.mp hy).2)
  have hmem3 : ∀ x ∈ (ops.filter (fun op =>
      Trello.opValue op ∉ [PyV.str "rename", PyV.str "create_epic", PyV.str "create"])).map
      Trello.capEpic, Trello.trelloGroup x = 3 := by
    intro x hx
    rcases List.mem_map.mp hx with ⟨y, hy, rfl⟩
    rw [trelloGroup_capEpic]
    exact (trelloGroup_eq_three_iff y).mpr (by simpa using (List.mem_filter.mp hy).2)
  have hgself : ∀ (l : List RawOp) (k : Nat), (∀ x ∈ l, Trello.trelloGroup x = k) →
      l.filter (fun op => Trello.trelloGroup op = k) = l := fun l k h =>
    List.filter_eq_self.mpr (fun a ha => by simp [h a ha])
  have hgnil : ∀ (l : List RawOp) (k : Nat), (∀ x ∈ l, Trello.trelloGroup x = k) →
      ∀ k2, k ≠ k2 → l.filter (fun op => Trello.trelloGroup op = k2) = [] := fun l k h k2 hk =>
    List.filter_eq_nil_iff.mpr (fun a ha => by
      simp only [h a ha, decide_eq_true_eq]
      exact hk)
  refine ⟨?_, ?_, ?_, ?_, ?_⟩
  · unfold Trello.trelloReorder
    rw [List.map_append, List.map_append, List.map_append]
    refine sorted_four_blocks _ _ _ _ ?_ ?_ ?_ ?_
    · intro x hx
      rcases List.mem_map.mp hx with ⟨y, hy, rfl⟩
      exact hmem0 y hy
    · intro x hx
      rcases List.mem_map.mp hx with ⟨y, hy, rfl⟩
      exact hmem1 y hy
    · intro x hx
      rcases List.mem_map.mp hx with ⟨y, hy, rfl⟩
      exact hmem2 y hy
    · intro x hx
      rcases List.mem_map.mp hx with ⟨y, hy, rfl⟩
      exact hmem3 y hy
  · unfold Trello.trelloReorder
    rw [List.filter_append, List.filter_append, List.filter_append,
      hgself _ 0 hmem0, hgnil _ 1 hmem1 0 (by decide), hgnil _ 2 hmem2 0 (by decide),
      hgnil _ 3 hmem3 0 (by decide)]
    simp only [List.append_nil]
    exact List.filter_congr (fun a _ => by
      rw [decide_eq_decide]
      exact (trelloGroup_eq_zero_iff a).symm)
  · unfold Trello.trelloReorder
    rw [List.filter_append, List.filter_append, List.filter_append,
      hgnil _ 0 hmem0 1 (by decide), hgself _ 1 hmem1, hgnil _ 2 hmem2 1 (by decide),
      hgnil _ 3 hmem3 1 (by decide)]
    simp only [List.append_nil, List.nil_append]
    refine congrArg (List.map Trello.capEpic) ?_
    exact List.filter_congr (fun a _ => by
      rw [decide_eq_decide]
      exact (trelloGroup_eq_one_iff a).symm)
  · unfold Trello.trelloReorder
    rw [List.filter_append, List.filter_append, List.filter_append,
      hgnil _ 0 hmem0 2 (by decide), hgnil _ 1 hmem1 2 (by decide), hgself _ 2 hmem2,
      hgnil _ 3 hmem3 2 (by decide)]
    simp only [List.append_nil, List.nil_append]
    refine congrArg (List.map Trello.capEpic) ?_
    exact List.filter_congr (fun a _ => by
      rw [decide_eq_decide]
      exact (trelloGroup_eq_two_iff a).symm)
  · unfold Trello.trelloReorder
    rw [List.filter_append, List.filter_append, List.filter_append,
      hgnil _ 0 hmem0 3 (by decide), hgnil _ 1 hmem1 3 (by decide),
      hgnil _ 2 hmem2 3 (by decide), hgself _ 3 hmem3]
    simp only [List.nil_append]
    refine congrArg (List.map Trello.capEpic) ?_
    exact List.filter_congr (fun a _ => by
      rw [decide_eq_decide]
      exact (trelloGroup_eq_three_iff a).symm)
/-- C2 witness: a concrete batch with one delete and one create; the delete
ends up at index 1, the create at index 0, and the theorem yields `0 < 1`. -/
theorem asana_extractor_moves_deletes_last_witness :
    Asana.isDeleteOp ((Asana.moveDeletesLast
        [[("intent", PyV.str "delete")], [("intent", PyV.str "create")]]).get ⟨1, by decide⟩) = true
    ∧ Asana.isDeleteOp ((Asana.moveDeletesLast
        [[("intent", PyV.str "delete")], [("intent", PyV.str "create")]]).get ⟨0, by decide⟩) = false
    ∧ 0 < 1 :=
  ⟨by decide, by decide,
   asana_extractor_moves_deletes_last
     [[("intent", PyV.str "delete")], [("intent", PyV.str "create")]]
     1 0 (by decide) (by decide) (by decide) (by decide)⟩

/-- C4 counterexample: the first occurrence of a signature is not always
kept — in the Trello extractor a first-occurrence create whose task name
matches an existing card is excluded by the remote-entity dedup, even though
its signature was never seen before. -/
theorem trello_filter_drops_first_create_of_existing_card :
    Trello.trelloFilter ["fix bug"] []
        [RawOp.dict [("operation", PyV.str "create"), ("task", PyV.str "Fix Bug")]] = []
    ∧ Trello.create_operation_signature
        (RawOp.dict [("operation", PyV.str "create"), ("task", PyV.str "Fix Bug")])
      = some "create:fix bug:::" := by
  refine ⟨by decide, by decide⟩

/-- C4 (amended): within one batch, at most one operation per signature
reaches the Applier (the signatures of the filtered batch are pairwise
distinct, in both the Trello and Linear extractors), and in the Linear
extractor the first occurrence of each signature is the one kept.  In the
Trello extractor a first occurrence can additionally be excluded by the
existing-card check (see the counterexample), and signature-less operations
are dropped. -/
theorem signature_dedup_excludes_later_duplicates :
    (∀ (existing proc : List String) (ops : List RawOp),
        ((Trello.trelloFilter existing proc ops).filterMap
          Trello.create_operation_signature).Nodup)
    ∧ (∀ (seen : List String) (ops : List RawOp),
        ((Linear.linearFilter seen ops).filterMap Linear.create_operation_signature).Nodup)
    ∧ (∀ (seen : List String) (pre post : List RawOp) (op : RawOp) (s : String),
        Linear.create_operation_signature op = some s → s ∉ seen →
        (∀ p ∈ pre, Linear.create_operation_signature p ≠ some s) →
        op ∈ Linear.linearFilter seen (pre ++ op :: post)) :=
  ⟨fun existing proc ops => trelloFilter_sigs_nodup existing ops proc,
   fun seen ops => linearFilter_sigs_nodup ops seen,
   fun seen pre post op s hsig hseen hpre =>
     linearFilter_first_kept pre seen post op s hsig hseen hpre⟩

/-- C4 witness: two distinct creates; the second one's signature is fresh and
unmatched by the first, so the second operation is kept by the Linear dedup. -/
theorem signature_dedup_first_kept_witness :
    Linear.create_operation_signature
        (RawOp.dict [("operation", PyV.str "create"), ("title", PyV.str "B")])
      = some "create:b:::"
    ∧ ("create:b:::" ∉ ([] : List String))
    ∧ (∀ p ∈ [RawOp.dict [("operation", PyV.str "create"), ("title", PyV.str "A")]],
        Linear.create_operation_signature p ≠ some "create:b:::")
    ∧ RawOp.dict [("operation", PyV.str "create"), ("title", PyV.str "B")]
        ∈ Linear.linearFilter []
          ([RawOp.dict [("operation", PyV.str "create"), ("title", PyV.str "A")]]
            ++ RawOp.dict [("operation", PyV.str "create"), ("title", PyV.str "B")] :: []) :=
  ⟨by decide, by decide, by decide,
   signature_dedup_excludes_later_duplicates.2.2 []
     [RawOp.dict [("operation", PyV.str "create"), ("title", PyV.str "A")]] []
     (RawOp.dict [("operation", PyV.str "create"), ("title", PyV.str "B")])
     "create:b:::" (by decide) (by decide) (by decide)⟩

/-- C8 counterexample: a non-mapping operation (signature `None`) is silently
dropped by the Trello extractor's filter rather than passed through. -/
theorem trello_filter_drops_non_mapping_operations :
    Trello.trelloFilter [] [] [RawOp.nonDict] = []
    ∧ Trello.create_operation_signature RawOp.nonDict = Option.none :=
  ⟨rfl, rfl⟩

/-- C8 (amended): both signature functions return `None` exactly on
non-mapping input; the Linear extractor still passes signature-less
operations through to the Applier, but the Trello extractor drops them
(see the counterexample). -/
theorem signature_none_iff_not_mapping :
    (∀ op : RawOp, Trello.create_operation_signature op = Option.none ↔ op = RawOp.nonDict)
    ∧ (∀ op : RawOp, Linear.create_operation_signature op = Option.none ↔ op = RawOp.nonDict)
    ∧ (∀ (seen : List String) (ops : List RawOp) (op : RawOp), op ∈ ops →
        Linear.create_operation_signature op = Option.none →
        op ∈ Linear.linearFilter seen ops) := by
  refine ⟨?_, ?_, fun seen ops op hop hnone => linearFilter_none_kept ops seen op hop hnone⟩
  · intro op
    cases op with
    | dict kvs => simp [Trello.create_operation_signature]
    | nonDict => simp [Trello.create_operation_signature]
  · intro op
    cases op with
    | dict kvs => simp [Linear.create_operation_signature]
    | nonDict => simp [Linear.create_operation_signature]

/-- C8 witness: a non-mapping operation is kept by the Linear dedup loop. -/
theorem signature_none_passthrough_witness :
    (RawOp.nonDict ∈ ([RawOp.nonDict] : List RawOp))
    ∧ Linear.create_operation_signature RawOp.nonDict = Option.none
    ∧ RawOp.nonDict ∈ Linear.linearFilter [] [RawOp.nonDict] :=
  ⟨List.mem_cons_self RawOp.nonDict [], rfl,
   signature_none_iff_not_mapping.2.2 [] [RawOp.nonDict] RawOp.nonDict
     (List.mem_cons_self RawOp.nonDict []) rfl⟩

/-- C6 counterexample: an unmatched reference against a single-item checklist
is NOT resolved to that single item — `find_checklist_item_by_name` has no
single-candidate fallback, contrary to the claim's "checklist or
checklist-item" scope. -/
theorem checklist_item_single_candidate_not_returned :
    Trello.find_checklist_item_by_name
        [⟨"cl1", "Steps", [⟨"i1", "Alpha", "incomplete"⟩]⟩] "cl1" "zzzz" = Option.none
    ∧ ([⟨"i1", "Alpha", "incomplete"⟩] : List Trello.ChecklistItem).length = 1
    ∧ Trello.matchOrdinalRef "item" "zzzz" = Option.none
    ∧ Trello.matchNounNum "item" "zzzz" = Option.none
    ∧ pyIsDigit "zzzz" = false
    ∧ pyLower "Alpha" ≠ pyLower "zzzz"
    ∧ (Trello.get_best_fuzzy_match "zzzz" ["Alpha"] ⟨6, 10⟩).1 = Option.none := by
  refine ⟨by decide, rfl, by decide, by decide, by decide, by decide, by decide⟩

/-- C6 (amended): when a reference fails positional, exact and fuzzy
matching, the single-candidate fallback exists only for checklists:
`find_checklist_by_name` returns the lone checklist regardless of
similarity, while `find_checklist_item_by_name` returns no match even for a
single-item checklist, and `find_card_by_name` has no such fallback either
(an unmatched card reference stays unresolved even with exactly one card). -/
theorem single_candidate_fallback_checklists_only :
    (∀ (cards : List Trello.Card) (card_id name : String) (card : Trello.Card)
        (cl0 : Trello.Checklist),
        cards.find? (fun c => c.id = card_id) = some card →
        Trello.matchOrdinalRef "checklist" name = Option.none →
        Trello.matchNounNum "checklist" name = Option.none →
        (∀ cl ∈ card.checklists, pyLower cl.name ≠ pyLower name) →
        (Trello.get_best_fuzzy_match name (card.checklists.map (fun c => c.name)) ⟨7, 10⟩).1
          = Option.none →
        card.checklists = [cl0] →
        Trello.find_checklist_by_name cards card_id name = some cl0.id)
    ∧ (∀ (checklists : List Trello.Checklist) (checklist_id name : String)
        (cl : Trello.Checklist),
        checklists.find? (fun c => c.id = checklist_id) = some cl →
        Trello.matchOrdinalRef "item" name = Option.none →
        Trello.matchNounNum "item" name = Option.none →
        pyIsDigit name = false →
        (∀ it ∈ cl.items, pyLower it.name ≠ pyLower name) →
        (Trello.get_best_fuzzy_match name (cl.items.map (fun it => it.name)) ⟨6, 10⟩).1
          = Option.none →
        Trello.find_checklist_item_by_name checklists checklist_id name = Option.none)
    ∧ (∀ (cards : List Trello.Card) (name : String) (c : Trello.Card),
        cards = [c] →
        pyLower c.name ≠ pyLower name →
        strContains (pyLower c.name) (pyLower name) = false →
        Trello.find_card_by_name cards name = Option.none) := by
  refine ⟨?_, ?_, ?_⟩
  · intro cards card_id name card cl0 hcard hord hnum hex hfz heq
    rw [heq] at hex hfz
    simp only [List.map_cons, List.map_nil] at hfz
    have hexact : List.find? (fun c => pyLower c.name = pyLower name) [cl0] = Option.none :=
      List.find?_eq_none.mpr (fun cl hcl => by simp [hex cl hcl])
    simp [Trello.find_checklist_by_name, hord, hnum, hcard, heq, hexact, hfz]
  · intro checklists checklist_id name cl hcl hord hnum hdig hex hfz
    have hexact : List.find? (fun it => pyLower it.name = pyLower name) cl.items
        = Option.none :=
      List.find?_eq_none.mpr (fun it hit => by simp [hex it hit])
    simp [Trello.find_checklist_item_by_name, hord, hnum, hdig, hcl, hexact, hfz]
  · intro cards name c heq hne hsub
    have h1 : List.find? (fun c => pyLower c.name = pyLower name) [c] = Option.none :=
      List.find?_eq_none.mpr (fun x hx => by
        rcases List.mem_singleton.mp hx with rfl
        simp [hne])
    have h2 : List.find? (fun c => strContains (pyLower c.name) (pyLower name)) [c]
        = Option.none :=
      List.find?_eq_none.mpr (fun x hx => by
        rcases List.mem_singleton.mp hx with rfl
        simp [hsub])
    rw [heq]
    simp [Trello.find_card_by_name, h1, h2]

/-- C6 witness: the three resolvers applied to concrete single-candidate
states with the unmatched reference "zzzz". -/
theorem single_candidate_fallback_witness :
    Trello.find_checklist_by_name
        [⟨"c1", "Card", [], [], [⟨"cl1", "Alpha", []⟩]⟩] "c1" "zzzz"
      = some "cl1"
    ∧ Trello.find_checklist_item_by_name
        [⟨"cl1", "Steps", [⟨"i1", "Alpha", "incomplete"⟩]⟩] "cl1" "zzzz" = Option.none
    ∧ Trello.find_card_by_name [⟨"c1", "Alpha", [], [], []⟩] "zzzz" = Option.none :=
  ⟨single_candidate_fallback_checklists_only.1
      [⟨"c1", "Card", [], [], [⟨"cl1", "Alpha", []⟩]⟩] "c1" "zzzz"
      ⟨"c1", "Card", [], [], [⟨"cl1", "Alpha", []⟩]⟩ ⟨"cl1", "Alpha", []⟩
      (by decide) (by decide) (by decide) (by decide) (by decide) (by decide),
   single_candidate_fallback_checklists_only.2.1
      [⟨"cl1", "Steps", [⟨"i1", "Alpha", "incomplete"⟩]⟩] "cl1" "zzzz"
      ⟨"cl1", "Steps", [⟨"i1", "Alpha", "incomplete"⟩]⟩
      (by decide) (by decide) (by decide) (by decide) (by decide) (by decide),
   single_candidate_fallback_checklists_only.2.2
      [⟨"c1", "Alpha", [], [], []⟩] "zzzz" ⟨"c1", "Alpha", [], [], []⟩
      (by decide) (by decide) (by decide)⟩

lemma find?_map_preserve {α : Type} (l : List α) (p : α → Bool) (f : α → α)
    (hf : ∀ x, p (f x) = p x) :
    (l.map f).find? p = (l.find? p).map f := by
  rw [List.find?_map, show (p ∘ f) = p from funext hf]

lemma find_card_by_name_some (cards : List Trello.Card) (n cid : String)
    (h : Trello.find_card_by_name cards n = some cid) :
    ∃ c ∈ cards, c.id = cid := by
  unfold Trello.find_card_by_name at h
  cases h1 : cards.find? (fun c => pyLower c.name = pyLower n) with
  | some c =>
    rw [h1] at h
    exact ⟨c, List.mem_of_find?_eq_some h1, by injection h⟩
  | none =>
    rw [h1] at h
    cases h2 : cards.find? (fun c => strContains (pyLower c.name) (pyLower n)) with
    | some c =>
      rw [h2] at h
      exact ⟨c, List.mem_of_find?_eq_some h2, by injection h⟩
    | none =>
      rw [h2] at h
      cases h

lemma find_label_by_name_some (labels : List Trello.TrelloLabel) (n lid : String)
    (h : Trello.find_label_by_name labels n = some lid) :
    ∃ lab ∈ labels, lab.id = lid
      ∧ (pyLower lab.name = pyLower n ∨ strContains (pyLower lab.name) (pyLower n) = true) := by
  unfold Trello.find_label_by_name at h
  cases h1 : labels.find? (fun l => pyLower l.name = pyLower n) with
  | some l =>
    rw [h1] at h
    refine ⟨l, List.mem_of_find?_eq_some h1, by injection h, Or.inl ?_⟩
    simpa using List.find?_some h1
  | none =>
    rw [h1] at h
    cases h2 : labels.find? (fun l => strContains (pyLower l.name) (pyLower n)) with
    | some l =>
      rw [h2] at h
      refine ⟨l, List.mem_of_find?_eq_some h2, by injection h, Or.inr ?_⟩
      simpa using List.find?_some h2
    | none =>
      rw [h2] at h
      cases h

lemma find_label_by_name_append_fresh (labels : List Trello.TrelloLabel) (n i : String)
    (hn : Trello.find_label_by_name labels n = Option.none) :
    Trello.find_label_by_name (labels ++ [⟨i, n⟩]) n = some i := by
  have h1 : labels.find? (fun l => pyLower l.name = pyLower n) = Option.none := by
    unfold Trello.find_label_by_name at hn
    cases h1 : labels.find? (fun l => pyLower l.name = pyLower n) with
    | some l => rw [h1] at hn; cases hn
    | none => rfl
  unfold Trello.find_label_by_name
  rw [List.find?_append, h1]
  simp

lemma cardLabels_add_label (b : Trello.Board) (cid lid : String)
    (hex : ∃ c ∈ b.cards, c.id = cid) :
    Trello.cardLabels (Trello.add_label_to_card b cid lid) cid
      = Trello.cardLabels b cid ++ [lid] := by
  obtain ⟨c, hc, hcid⟩ := hex
  have hsome : (b.cards.find? (fun c => c.id = cid)).isSome :=
    List.find?_isSome.mpr ⟨c, hc, by simp [hcid]⟩
  obtain ⟨c0, hc0⟩ := Option.isSome_iff_exists.mp hsome
  have hc0id : c0.id = cid := by simpa using List.find?_some hc0
  unfold Trello.cardLabels Trello.add_label_to_card
  rw [find?_map_preserve _ _ _ (fun x => by by_cases hx : x.id = cid <;> simp [hx]), hc0]
  simp [hc0id]

lemma find?_remove_loop (cid : String) :
    ∀ (ms : List String) (b : Trello.Board) (c0 : Trello.Card),
      b.cards.find? (fun c => c.id = cid) = some c0 →
      ((ms.foldl (fun bb m => Trello.removeMemberCall bb cid m) b).cards.find?
          (fun c => c.id = cid))
        = some { c0 with idMembers := ms.foldl (fun l m => l.erase m) c0.idMembers } := by
  intro ms
  induction ms with
  | nil =>
    intro b c0 h
    obtain ⟨ci, cn, cm, cl, cc⟩ := c0
    exact h
  | cons m ms ih =>
    intro b c0 h
    have hc0id : c0.id = cid := by simpa using List.find?_some h
    have h1 : (Trello.removeMemberCall b cid m).cards.find? (fun c => c.id = cid)
        = some { c0 with idMembers := c0.idMembers.erase m } := by
      unfold Trello.removeMemberCall
      rw [find?_map_preserve _ _ _ (fun x => by by_cases hx : x.id = cid <;> simp [hx]), h]
      simp [hc0id]
    exact ih (Trello.removeMemberCall b cid m) _ h1

lemma foldl_erase_self : ∀ (l : List String), l.foldl (fun a x => a.erase x) l = [] := by
  intro l
  induction l with
  | nil => rfl
  | cons h t ih =>
    show List.foldl (fun a x => a.erase x) ((h :: t).erase h) t = []
    rw [List.erase_cons_head]
    exact ih

/-- C9 counterexample: the Asana `add_tag` branch reports success for a
resolved task without creating or attaching any label — the workspace state
is returned unchanged and the task's tag list stays empty. -/
theorem asana_add_tag_attaches_nothing :
    Asana.add_tag
        ⟨[⟨"g1", "Fix bug", Option.none, Option.none, Option.none, [], Option.none, []⟩],
         [], [], []⟩ "Fix bug" "urgent"
      = (⟨[⟨"g1", "Fix bug", Option.none, Option.none, Option.none, [], Option.none, []⟩],
          [], [], []⟩,
         ⟨true, "add_tag", "Fix bug", some "g1", Option.none⟩)
    ∧ Asana.taskTags
        ⟨[⟨"g1", "Fix bug", Option.none, Option.none, Option.none, [], Option.none, []⟩],
         [], [], []⟩ "g1" = [] := by
  refine ⟨by decide, by decide⟩

/-- C9 (amended): the find-or-create-then-attach contract holds for Trello's
`assign_label_to_card`: when the card resolves and the label name is
nonempty, the call succeeds and appends to the card exactly one label id
belonging to a board label whose name matches the request (found fuzzily or
freshly created with that exact name).  The Asana `add_tag`/`remove_tag`
branches are stubs: in particular removing a tag that is not attached
trivially succeeds with no state change. -/
theorem label_assign_find_or_create_then_attach :
    (∀ (b : Trello.Board) (task epic card_id : String),
        Trello.find_card_by_name b.cards task = some card_id →
        epic ≠ "" →
        (Trello.assign_label_to_card b task epic).2 = true
        ∧ ∃ lid lab, lab ∈ (Trello.assign_label_to_card b task epic).1.labels
            ∧ lab.id = lid
            ∧ (pyLower lab.name = pyLower epic
               ∨ strContains (pyLower lab.name) (pyLower epic) = true)
            ∧ Trello.cardLabels (Trello.assign_label_to_card b task epic).1 card_id
                = Trello.cardLabels b card_id ++ [lid])
    ∧ (∀ (ws : Asana.AsanaWS) (target_task tag gid : String),
        Asana.find_task_gid_by_name target_task ws.tasks = some gid →
        tag ≠ "" →
        Asana.remove_tag ws target_task tag
          = (ws, ⟨true, "remove_tag", target_task, some gid, Option.none⟩)) := by
  constructor
  · intro b task epic card_id hcard hepic
    have hex : ∃ c ∈ b.cards, c.id = card_id := find_card_by_name_some b.cards task card_id hcard
    unfold Trello.assign_label_to_card
    rw [hcard]
    cases hfl : Trello.find_label_by_name b.labels epic with
    | some lid =>
      obtain ⟨lab, hmem, hid, hname⟩ := find_label_by_name_some b.labels epic lid hfl
      exact ⟨rfl, lid, lab, hmem, hid, hname, cardLabels_add_label b card_id lid hex⟩
    | none =>
      have hcl : Trello.create_label b epic
          = ({ b with labels := b.labels ++ [⟨b.nextLabelId, epic⟩] }, true) := by
        unfold Trello.create_label
        rw [if_neg hepic]
      rw [hcl]
      dsimp only
      have hfound := find_label_by_name_append_fresh b.labels epic b.nextLabelId hfl
      rw [hfound]
      refine ⟨rfl, b.nextLabelId, ⟨b.nextLabelId, epic⟩, ?_, rfl, Or.inl rfl, ?_⟩
      · exact List.mem_append_right _ (List.mem_singleton.mpr rfl)
      · exact cardLabels_add_label { b with labels := b.labels ++ [⟨b.nextLabelId, epic⟩] }
          card_id b.nextLabelId hex
  · intro ws target_task tag gid hgid htag
    unfold Asana.remove_tag
    rw [hgid]
    dsimp only
    rw [if_pos htag]

/-- C9 witness: concrete board with no labels: assigning label "Infra" to a
resolved card succeeds, creates the label and attaches it; concrete Asana
workspace: removing an unattached tag succeeds with no state change. -/
theorem label_assign_find_or_create_witness :
    ((Trello.assign_label_to_card ⟨[⟨"c1", "Fix login bug", [], [], []⟩], [], [], "L1"⟩
        "Fix login bug" "Infra").2 = true
     ∧ ∃ lid lab,
         lab ∈ (Trello.assign_label_to_card ⟨[⟨"c1", "Fix login bug", [], [], []⟩], [], [], "L1"⟩
           "Fix login bug" "Infra").1.labels
         ∧ lab.id = lid
         ∧ (pyLower lab.name = pyLower "Infra"
            ∨ strContains (pyLower lab.name) (pyLower "Infra") = true)
         ∧ Trello.cardLabels
             (Trello.assign_label_to_card ⟨[⟨"c1", "Fix login bug", [], [], []⟩], [], [], "L1"⟩
               "Fix login bug" "Infra").1 "c1"
           = Trello.cardLabels ⟨[⟨"c1", "Fix login bug", [], [], []⟩], [], [], "L1"⟩ "c1" ++ [lid])
    ∧ Asana.remove_tag
        ⟨[⟨"g1", "Fix bug", Option.none, Option.none, Option.none, [], Option.none, []⟩],
         [], [], []⟩ "Fix bug" "urgent"
      = (⟨[⟨"g1", "Fix bug", Option.none, Option.none, Option.none, [], Option.none, []⟩],
          [], [], []⟩,
         ⟨true, "remove_tag", "Fix bug", some "g1", Option.none⟩) :=
  ⟨label_assign_find_or_create_then_attach.1
     ⟨[⟨"c1", "Fix login bug", [], [], []⟩], [], [], "L1"⟩
     "Fix login bug" "Infra" "c1" (by decide) (by decide),
   label_assign_find_or_create_then_attach.2
     ⟨[⟨"g1", "Fix bug", Option.none, Option.none, Option.none, [], Option.none, []⟩],
      [], [], []⟩ "Fix bug" "urgent" "g1" (by decide) (by decide)⟩

/-- C10: Trello member assignment is replacement, not additive: when both
card and member resolve, the call succeeds and afterwards the card carries
exactly the one assigned member, whatever was assigned before. -/
theorem assign_member_replacement (b : Trello.Board) (task member card_id member_id : String)
    (hcard : Trello.find_card_by_name b.cards task = some card_id)
    (hmem : Trello.get_member_id_by_name b.members member = some member_id) :
    (Trello.assign_member_to_card b task member).2 = true
    ∧ Trello.cardMembers (Trello.assign_member_to_card b task member).1 card_id
        = [member_id] := by
  have hex : ∃ c ∈ b.cards, c.id = card_id := find_card_by_name_some b.cards task card_id hcard
  obtain ⟨c, hc, hcid⟩ := hex
  have hsome : (b.cards.find? (fun c => c.id = card_id)).isSome :=
    List.find?_isSome.mpr ⟨c, hc, by simp [hcid]⟩
  obtain ⟨c0, hc0⟩ := Option.isSome_iff_exists.mp hsome
  unfold Trello.assign_member_to_card
  rw [hcard, hmem]
  refine ⟨rfl, ?_⟩
  have hloop := find?_remove_loop card_id
    (((b.cards.find? (fun c => c.id = card_id)).map (fun c => c.idMembers)).getD [])
    b c0 hc0
  rw [hc0] at hloop
  simp only [Option.map_some', Option.getD_some] at hloop
  rw [foldl_erase_self c0.idMembers] at hloop
  unfold Trello.cardMembers
  rw [find?_map_preserve _ _ _ (fun x => by by_cases hx : x.id = card_id <;> simp [hx])]
  rw [show ((((b.cards.find? (fun c => c.id = card_id)).map (fun c => c.idMembers)).getD
      []).foldl (fun bb m => Trello.removeMemberCall bb card_id m) b).cards.find?
        (fun c => c.id = card_id) = some { c0 with idMembers := [] } from by
    rw [hc0]
    simpa using hloop]
  have hc0id : c0.id = card_id := by simpa using List.find?_some hc0
  simp [hc0id]

/-- C10 witness: a card with two existing assignees ends up with exactly the
newly assigned member. -/
theorem assign_member_replacement_witness :
    Trello.find_card_by_name [⟨"c1", "Fix login bug", ["m9", "m8"], [], []⟩] "Fix login bug"
      = some "c1"
    ∧ Trello.get_member_id_by_name [⟨"m1", "Bob Smith", "bob"⟩] "Bob" = some "m1"
    ∧ (Trello.assign_member_to_card
        ⟨[⟨"c1", "Fix login bug", ["m9", "m8"], [], []⟩], [], [⟨"m1", "Bob Smith", "bob"⟩], "L1"⟩
        "Fix login bug" "Bob").2 = true
    ∧ Trello.cardMembers (Trello.assign_member_to_card
        ⟨[⟨"c1", "Fix login bug", ["m9", "m8"], [], []⟩], [], [⟨"m1", "Bob Smith", "bob"⟩], "L1"⟩
        "Fix login bug" "Bob").1 "c1" = ["m1"] :=
  ⟨by decide, by decide,
   (assign_member_replacement
      ⟨[⟨"c1", "Fix login bug", ["m9", "m8"], [], []⟩], [], [⟨"m1", "Bob Smith", "bob"⟩], "L1"⟩
      "Fix login bug" "Bob" "c1" "m1" (by decide) (by decide)).1,
   (assign_member_replacement
      ⟨[⟨"c1", "Fix login bug", ["m9", "m8"], [], []⟩], [], [⟨"m1", "Bob Smith", "bob"⟩], "L1"⟩
      "Fix login bug" "Bob" "c1" "m1" (by decide) (by decide)).2⟩

lemma lookup_cons_any {β : Type} (a b : String) (v : β) (es : List (String × β)) :
    List.lookup a ((b, v) :: es) = if a == b then some v else List.lookup a es := by
  simp only [List.lookup]
  cases a == b <;> rfl

lemma lookup_map_set (cfs : List (String × Option String)) (g : String) (v : Option String) :
    (cfs.map (fun p => if p.1 = g then (g, v) else p)).lookup g
      = (cfs.lookup g).map (fun _ => v) := by
  induction cfs with
  | nil => rfl
  | cons p tl ih =>
    obtain ⟨k0, v0⟩ := p
    by_cases h : k0 = g
    · subst h
      simp [lookup_cons_any, ih]
    · have hb : (g == k0) = false := by simp [Ne.symm h]
      simp [lookup_cons_any, if_neg h, hb, ih]

lemma lookup_map_set_ne (cfs : List (String × Option String)) (gq g : String)
    (v : Option String) (hne : gq ≠ g) :
    (cfs.map (fun p => if p.1 = gq then (gq, v) else p)).lookup g = cfs.lookup g := by
  induction cfs with
  | nil => rfl
  | cons p tl ih =>
    obtain ⟨k0, v0⟩ := p
    by_cases h : k0 = gq
    · subst h
      have hgk : g ≠ k0 := fun hh => hne hh.symm
      have hb : (g == k0) = false := by simp [hgk]
      simp [lookup_cons_any, hb, ih]
    · simp [lookup_cons_any, if_neg h, ih]

lemma lookup_append_none {β : Type} (l : List (String × β)) (g : String) (v : β)
    (h : l.lookup g = Option.none) : (l ++ [(g, v)]).lookup g = some v := by
  induction l with
  | nil => simp [lookup_cons_any]
  | cons p tl ih =>
    obtain ⟨k0, w⟩ := p
    rw [lookup_cons_any] at h
    cases hk : (g == k0) with
    | true => rw [hk] at h; cases h
    | false =>
      rw [hk] at h
      rw [List.cons_append, lookup_cons_any, hk]
      exact ih h

lemma lookup_append_or {β : Type} (l1 l2 : List (String × β)) (g : String) :
    (l1 ++ l2).lookup g = (l1.lookup g).or (l2.lookup g) := by
  induction l1 with
  | nil => simp
  | cons p tl ih =>
    obtain ⟨k0, w⟩ := p
    rw [List.cons_append, lookup_cons_any, lookup_cons_any]
    cases hk : (g == k0) with
    | true => simp
    | false => simpa using ih

lemma lookup_setCF_self (cfs : List (String × Option String)) (g : String) (v : Option String) :
    (Asana.setCF cfs g v).lookup g = some v := by
  unfold Asana.setCF
  by_cases h : (cfs.lookup g).isSome
  · rw [if_pos h, lookup_map_set]
    obtain ⟨w, hw⟩ := Option.isSome_iff_exists.mp h
    rw [hw]
    rfl
  · rw [if_neg h]
    exact lookup_append_none cfs g v (Option.not_isSome_iff_eq_none.mp h)

lemma lookup_setCF_ne (cfs : List (String × Option String)) (gq g : String)
    (v : Option String) (hne : gq ≠ g) :
    (Asana.setCF cfs gq v).lookup g = cfs.lookup g := by
  unfold Asana.setCF
  by_cases h : (cfs.lookup gq).isSome
  · rw [if_pos h]
    exact lookup_map_set_ne cfs gq g v hne
  · rw [if_neg h, lookup_append_or]
    cases hg : cfs.lookup g with
    | some w => rfl
    | none =>
      have hgk : g ≠ gq := fun hh => hne hh.symm
      have hb : (g == gq) = false := by simp [hgk]
      simp [lookup_cons_any, hb]

lemma find?_updTasks (ts : List Asana.ATask) (g0 g : String) (f : Asana.ATask → Asana.ATask)
    (hf : ∀ t, (f t).gid = t.gid) :
    (Asana.updTasks ts g0 f).find? (fun t => t.gid = g)
      = (ts.find? (fun t => t.gid = g)).map (fun t => if t.gid = g0 then f t else t) := by
  unfold Asana.updTasks
  exact find?_map_preserve ts _ _ (fun t => by by_cases h : t.gid = g0 <;> simp [h, hf t])

lemma taskCF_updTasks_nocf (ws : Asana.AsanaWS) (g0 g fg : String)
    (f : Asana.ATask → Asana.ATask)
    (hgid : ∀ t, (f t).gid = t.gid) (hcf : ∀ t, (f t).customFields = t.customFields) :
    Asana.taskCF { ws with tasks := Asana.updTasks ws.tasks g0 f } g fg
      = Asana.taskCF ws g fg := by
  unfold Asana.taskCF
  dsimp only
  rw [find?_updTasks ws.tasks g0 g f hgid]
  cases hq : ws.tasks.find? (fun t => t.gid = g) with
  | none => rfl
  | some t =>
    dsimp only [Option.map_some']
    by_cases ht : t.gid = g0 <;> simp [ht, hcf t]

lemma taskCF_setTaskCF_self (ws : Asana.AsanaWS) (gid fg : String) (v : Option String)
    (hex : (ws.tasks.find? (fun t => t.gid = gid)).isSome) :
    Asana.taskCF (Asana.setTaskCF ws gid fg v) gid fg = v := by
  obtain ⟨t0, ht0⟩ := Option.isSome_iff_exists.mp hex
  have ht0g : t0.gid = gid := by simpa using List.find?_some ht0
  unfold Asana.taskCF Asana.setTaskCF
  dsimp only
  rw [find?_updTasks ws.tasks gid gid
    (fun t => { t with customFields := Asana.setCF t.customFields fg v }) (fun t => rfl), ht0]
  simp [ht0g, lookup_setCF_self]

lemma taskCF_setTaskCF_ne (ws : Asana.AsanaWS) (gid2 fg2 fg : String) (v : Option String)
    (hne : fg2 ≠ fg) (g : String) :
    Asana.taskCF (Asana.setTaskCF ws gid2 fg2 v) g fg = Asana.taskCF ws g fg := by
  unfold Asana.taskCF Asana.setTaskCF
  dsimp only
  rw [find?_updTasks ws.tasks gid2 g
    (fun t => { t with customFields := Asana.setCF t.customFields fg2 v }) (fun t => rfl)]
  cases hq : ws.tasks.find? (fun t => t.gid = g) with
  | none => rfl
  | some t =>
    dsimp only [Option.map_some']
    by_cases ht : t.gid = gid2 <;> simp [ht, lookup_setCF_ne _ _ _ _ hne]

lemma primaryUpdateTask_gid (users : List Asana.AUser) (op : Asana.UpdateOp)
    (t : Asana.ATask) : (Asana.primaryUpdateTask users op t).gid = t.gid := by
  unfold Asana.primaryUpdateTask
  dsimp only
  repeat' split
  all_goals rfl

lemma primaryUpdateTask_cf (users : List Asana.AUser) (op : Asana.UpdateOp)
    (t : Asana.ATask) : (Asana.primaryUpdateTask users op t).customFields = t.customFields := by
  unfold Asana.primaryUpdateTask
  dsimp only
  repeat' split
  all_goals rfl

lemma fieldSettings_priorityStep (ws : Asana.AsanaWS) (op : Asana.UpdateOp) (g : String) :
    (Asana.priorityStep ws op g).fieldSettings = ws.fieldSettings := by
  unfold Asana.priorityStep
  repeat' split
  all_goals rfl

lemma get_enum_status_fst (ws : Asana.AsanaWS) (v : String) :
    (Asana.get_enum_gid_for_status ws v).1 = Asana.find_custom_field_gid ws "status" := by
  unfold Asana.get_enum_gid_for_status
  cases h : Asana.find_custom_field_gid ws "status" with
  | none => rfl
  | some fg =>
    dsimp only
    repeat' split
    all_goals rfl

lemma taskCF_statusStep_preserve (ws : Asana.AsanaWS) (op : Asana.UpdateOp) (g gid fg : String)
    (hstat : ∀ g2, Asana.find_custom_field_gid ws "status" = some g2 → g2 ≠ fg) :
    Asana.taskCF (Asana.statusStep ws op g) gid fg = Asana.taskCF ws gid fg := by
  unfold Asana.statusStep
  cases hs : op.status with
  | none => rfl
  | some sv =>
    cases sv with
    | none =>
      dsimp only
      cases hfsg : Asana.find_custom_field_gid ws "status" with
      | none => rfl
      | some g2 => exact taskCF_setTaskCF_ne ws g g2 fg Option.none (hstat g2 hfsg) gid
    | some s =>
      dsimp only
      have hfst := get_enum_status_fst ws s
      cases hge : Asana.get_enum_gid_for_status ws s with
      | mk a b =>
        cases a with
        | none => rfl
        | some g2 =>
          cases b with
          | none => rfl
          | some eg =>
            have hsome : Asana.find_custom_field_gid ws "status" = some g2 := by
              rw [← hfst, hge]
            exact taskCF_setTaskCF_ne ws g g2 fg (some eg) (hstat g2 hsome) gid

lemma taskCF_sectionStep_preserve (ws : Asana.AsanaWS) (op : Asana.UpdateOp)
    (g gid fg : String) :
    Asana.taskCF (Asana.sectionStep ws op g) gid fg = Asana.taskCF ws gid fg := by
  unfold Asana.sectionStep
  cases hsec : op.sectionName with
  | none => rfl
  | some sec =>
    dsimp only
    split
    · cases hfs : Asana.find_section_gid ws.sections sec with
      | none => rfl
      | some sg =>
        exact taskCF_updTasks_nocf ws g gid fg (fun t => { t with sectionGid := some sg })
          (fun t => rfl) (fun t => rfl)
    · rfl

lemma find_cf_congr (ws2 ws : Asana.AsanaWS) (h : ws2.fieldSettings = ws.fieldSettings)
    (n : String) :
    Asana.find_custom_field_gid ws2 n = Asana.find_custom_field_gid ws n := by
  unfold Asana.find_custom_field_gid
  rw [h]

lemma task_exists_of_resolved (ws : Asana.AsanaWS) (title gid : String)
    (hres : Asana.find_task_gid_by_name title ws.tasks = some gid) :
    (ws.tasks.find? (fun t => t.gid = gid)).isSome := by
  unfold Asana.find_task_gid_by_name at hres
  cases hq : ws.tasks.find? (fun t =>
      pyLower title = pyLower t.name
        || strContains (pyLower t.name) (pyLower title)
        || strContains (pyLower title) (pyLower t.name)) with
  | none =>
    rw [hq] at hres
    cases hres
  | some t =>
    rw [hq] at hres
    simp only [Option.map_some', Option.some.injEq] at hres
    exact List.find?_isSome.mpr ⟨t, List.mem_of_find?_eq_some hq, by simp [hres]⟩

/-- C1: the present-null vs absent contract for the update operation's
`priority` field: when the target task resolves, the project has a priority
custom field, and the status custom field (if any) is a different field,
then an update whose payload carries `priority: null` clears the remote
priority field of the resolved task, while an update whose payload has no
`priority` key leaves the remote priority field unchanged. -/
theorem update_priority_present_null_vs_absent
    (ws : Asana.AsanaWS) (op : Asana.UpdateOp) (gid fg : String)
    (hres : Asana.find_task_gid_by_name op.target_task ws.tasks = some gid)
    (hfg : Asana.find_custom_field_gid ws "priority" = some fg)
    (hstat : ∀ g, Asana.find_custom_field_gid ws "status" = some g → g ≠ fg) :
    (op.priority = some Option.none →
        Asana.taskCF (Asana.applyUpdate ws op).1 gid fg = Option.none)
    ∧ (op.priority = Option.none →
        Asana.taskCF (Asana.applyUpdate ws op).1 gid fg = Asana.taskCF ws gid fg) := by
  have hex : (ws.tasks.find? (fun t => t.gid = gid)).isSome :=
    task_exists_of_resolved ws op.target_task gid hres
  have happ : (Asana.applyUpdate ws op).1
      = Asana.sectionStep (Asana.statusStep (Asana.priorityStep
          (Asana.primaryPut ws op gid) op gid) op gid) op gid := by
    unfold Asana.applyUpdate
    rw [hres]
  have hfs1 : (Asana.primaryPut ws op gid).fieldSettings = ws.fieldSettings := rfl
  have hex1 : ((Asana.primaryPut ws op gid).tasks.find? (fun t => t.gid = gid)).isSome := by
    show ((Asana.updTasks ws.tasks gid (Asana.primaryUpdateTask ws.users op)).find?
      (fun t => t.gid = gid)).isSome
    rw [find?_updTasks ws.tasks gid gid _ (primaryUpdateTask_gid ws.users op)]
    simpa using hex
  have hprim : Asana.taskCF (Asana.primaryPut ws op gid) gid fg = Asana.taskCF ws gid fg :=
    taskCF_updTasks_nocf ws gid gid fg (Asana.primaryUpdateTask ws.users op)
      (primaryUpdateTask_gid ws.users op) (primaryUpdateTask_cf ws.users op)
  constructor
  · intro hp
    have hfg1 : Asana.find_custom_field_gid (Asana.primaryPut ws op gid) "priority"
        = some fg := by
      rw [find_cf_congr _ _ hfs1]
      exact hfg
    have hps : Asana.priorityStep (Asana.primaryPut ws op gid) op gid
        = Asana.setTaskCF (Asana.primaryPut ws op gid) gid fg Option.none := by
      unfold Asana.priorityStep
      rw [hp]
      dsimp only
      rw [if_neg (by decide), if_pos (by decide), hfg1]
    have hstat2 : ∀ g, Asana.find_custom_field_gid
        (Asana.setTaskCF (Asana.primaryPut ws op gid) gid fg Option.none) "status"
          = some g → g ≠ fg := by
      intro g hg
      refine hstat g ?_
      rw [← hg]
      exact (find_cf_congr _ _ rfl "status").symm
    rw [happ, hps]
    rw [taskCF_sectionStep_preserve, taskCF_statusStep_preserve _ _ _ _ _ hstat2]
    exact taskCF_setTaskCF_self (Asana.primaryPut ws op gid) gid fg Option.none hex1
  · intro hp
    have hps : Asana.priorityStep (Asana.primaryPut ws op gid) op gid
        = Asana.primaryPut ws op gid := by
      unfold Asana.priorityStep
      rw [hp]
    have hstat2 : ∀ g, Asana.find_custom_field_gid (Asana.primaryPut ws op gid) "status"
        = some g → g ≠ fg := by
      intro g hg
      refine hstat g ?_
      rw [← hg]
      exact (find_cf_congr _ _ hfs1 "status").symm
    rw [happ, hps]
    rw [taskCF_sectionStep_preserve, taskCF_statusStep_preserve _ _ _ _ _ hstat2]
    exact hprim

/-- C1 witness: a concrete workspace with one task and a Priority custom
field: an update with `priority: null` clears the stored priority value; an
update without the `priority` key leaves it at its current value. -/
theorem update_priority_witness :
    Asana.find_task_gid_by_name "Fix bug"
        [⟨"g1", "Fix bug", Option.none, Option.none, Option.none, [("pf1", some "opt-high")],
          Option.none, []⟩]
      = some "g1"
    ∧ Asana.find_custom_field_gid
        ⟨[⟨"g1", "Fix bug", Option.none, Option.none, Option.none, [("pf1", some "opt-high")],
           Option.none, []⟩], [], [], [⟨"pf1", "Priority", [⟨"High", "opt-high"⟩]⟩]⟩ "priority"
      = some "pf1"
    ∧ Asana.taskCF (Asana.applyUpdate
        ⟨[⟨"g1", "Fix bug", Option.none, Option.none, Option.none, [("pf1", some "opt-high")],
           Option.none, []⟩], [], [], [⟨"pf1", "Priority", [⟨"High", "opt-high"⟩]⟩]⟩
        ⟨"Fix bug", Option.none, Option.none, Option.none, Option.none, some Option.none,
         Option.none, Option.none⟩).1 "g1" "pf1" = Option.none
    ∧ Asana.taskCF (Asana.applyUpdate
        ⟨[⟨"g1", "Fix bug", Option.none, Option.none, Option.none, [("pf1", some "opt-high")],
           Option.none, []⟩], [], [], [⟨"pf1", "Priority", [⟨"High", "opt-high"⟩]⟩]⟩
        ⟨"Fix bug", Option.none, some "new text", Option.none, Option.none, Option.none,
         Option.none, Option.none⟩).1 "g1" "pf1"
      = Asana.taskCF
        ⟨[⟨"g1", "Fix bug", Option.none, Option.none, Option.none, [("pf1", some "opt-high")],
           Option.none, []⟩], [], [], [⟨"pf1", "Priority", [⟨"High", "opt-high"⟩]⟩]⟩ "g1" "pf1" :=
  ⟨by decide, by decide,
   (update_priority_present_null_vs_absent
      ⟨[⟨"g1", "Fix bug", Option.none, Option.none, Option.none, [("pf1", some "opt-high")],
         Option.none, []⟩], [], [], [⟨"pf1", "Priority", [⟨"High", "opt-high"⟩]⟩]⟩
      ⟨"Fix bug", Option.none, Option.none, Option.none, Option.none, some Option.none,
       Option.none, Option.none⟩
      "g1" "pf1" (by decide) (by decide)
      (by intro g h; rw [show Asana.find_custom_field_gid
        ⟨[⟨"g1", "Fix bug", Option.none, Option.none, Option.none, [("pf1", some "opt-high")],
           Option.none, []⟩], [], [], [⟨"pf1", "Priority", [⟨"High", "opt-high"⟩]⟩]⟩ "status"
        = Option.none from by decide] at h; cases h)).1 rfl,
   (update_priority_present_null_vs_absent
      ⟨[⟨"g1", "Fix bug", Option.none, Option.none, Option.none, [("pf1", some "opt-high")],
         Option.none, []⟩], [], [], [⟨"pf1", "Priority", [⟨"High", "opt-high"⟩]⟩]⟩
      ⟨"Fix bug", Option.none, some "new text", Option.none, Option.none, Option.none,
       Option.none, Option.none⟩
      "g1" "pf1" (by decide) (by decide)
      (by intro g h; rw [show Asana.find_custom_field_gid
        ⟨[⟨"g1", "Fix bug", Option.none, Option.none, Option.none, [("pf1", some "opt-high")],
           Option.none, []⟩], [], [], [⟨"pf1", "Priority", [⟨"High", "opt-high"⟩]⟩]⟩ "status"
        = Option.none from by decide] at h; cases h)).2 rfl⟩
